import Mathlib

/-!
# uvalang front-end: lexer cursor, AST node lookups and the analyzer harness

A shallow embedding of `include/andy/lang/lexer.hpp`, `parser/parser.hpp` and
`src/analyzer.cpp`, followed by the properties proved about it. Member
functions that the headers only declare are modelled from the specification;
their doc comments say so.

Conventions of the embedding:

* `std::vector<T>` is `List T`; `size_t` is `Nat`, with `% 2 ^ 64` written out
  where the code subtracts; where an index may leave the buffer the result is
  an `Option`.
* `std::string` / `std::string_view` is `String`; one Lean `Char` stands for one
  C++ `char`.
* A pointer that may be `nullptr` is an `Option`; dereferencing `nullptr` and
  indexing outside a vector have no defined result and are `none`.
-/

set_option autoImplicit false

namespace andy.lang

/-! ## `lexer.hpp`: the token model -/

namespace lexer

/-- The enum `lexer::token_type`. -/
inductive token_type where
  | token_undefined
  | token_comment
  | token_keyword
  | token_identifier
  | token_literal
  | token_delimiter
  | token_operator
  | token_preprocessor
  | token_eof
  | token_type_max
  deriving DecidableEq, Repr

/-- The enum `lexer::token_kind`. -/
inductive token_kind where
  | token_null
  | token_boolean
  | token_integer
  | token_float
  | token_double
  | token_string
  deriving DecidableEq, Repr

/-- The enum `lexer::operator_type`. -/
inductive operator_type where
  | operator_null
  | operator_plus
  | operator_minus
  | operator_multiply
  | operator_divide
  | operator_modulo
  | operator_power
  | operator_and
  | operator_or
  | operator_not
  | operator_equal
  | operator_not_equal
  | operator_less
  | operator_less_equal
  | operator_greater
  | operator_greater_equal
  | operator_increment
  | operator_decrement
  | operator_max
  deriving DecidableEq, Repr

/-- The struct `lexer::token_position`; every member defaults to 0. -/
structure token_position where
  line : Nat := 0
  column : Nat := 0
  offset : Nat := 0
  deriving DecidableEq, Repr

/-- The class `lexer::token`. The anonymous union of decoded numeric literals
(`integer_literal`, `double_literal`, `float_literal`, `boolean_literal`) is
left out: nothing in the three source files reads it. -/
structure token where
  m_content : String
  m_type : token_type
  m_kind : token_kind
  m_operator : operator_type
  string_literal : String
  m_file_name : String
  start : token_position
  «end» : token_position
  deriving DecidableEq, Repr

namespace token

/-- `bool is_eof() const { return m_type == token_type::token_eof; }` -/
def is_eof (t : token) : Bool :=
  t.m_type == token_type.token_eof

/-- `token_type type() const { return m_type; }` -/
def type (t : token) : token_type :=
  t.m_type

/-- `token_kind kind() const { return m_kind; }` -/
def kind (t : token) : token_kind :=
  t.m_kind

/-- `operator_type op() const { return m_operator; }` -/
def op (t : token) : operator_type :=
  t.m_operator

/-- Modelled from the spec: `token::content()` is declared in `lexer.hpp`
("Return the content of the token.") but its body is not among the sources.
The spec's data model says `content` is "the raw lexeme text", which is what
the member `m_content` holds. -/
def content (t : token) : String :=
  t.m_content

/-- The state of a token made by `token() = default`: the string members are
empty and the positions are zero by their member initialisers. The three enum
members are left uninitialised by C++; they are fixed here at the first
enumerator. -/
def default_token : token :=
  { m_content := "", m_type := token_type.token_undefined, m_kind := token_kind.token_null,
    m_operator := operator_type.operator_null, string_literal := "", m_file_name := "",
    start := {}, «end» := {} }

end token

end lexer

/-! ## `lexer.hpp`: the token buffer and its cursor -/

/-- The data members of the class `lexer`. `m_tokens` is the token buffer and
`iterator` the cursor into it. -/
structure lexer where
  m_file_name : String
  m_source : String
  m_current : String
  m_buffer : String
  m_tokens : List lexer.token
  m_start : lexer.token_position
  iterator : Nat
  deriving DecidableEq, Repr

namespace lexer

/-- `std::string_view path() const { return m_file_name; }` -/
def path (l : lexer) : String :=
  l.m_file_name

/-- `const std::vector<token>& tokens() const { return m_tokens; }` -/
def tokens (l : lexer) : List token :=
  l.m_tokens

/-- `const token& current_token() const { return m_tokens[iterator-1]; }`.
`iterator - 1` is a `size_t` subtraction, which at 0 wraps around to
`2 ^ 64 - 1`. An index outside the vector has no defined result: `none`. -/
def current_token (l : lexer) : Option token :=
  l.m_tokens[(l.iterator + 2 ^ 64 - 1) % 2 ^ 64]?

/-- `bool has_previous_token() const { return iterator > 0; }` -/
def has_previous_token (l : lexer) : Bool :=
  decide (l.iterator > 0)

/-- `bool has_next_token() const { return iterator < m_tokens.size(); }` -/
def has_next_token (l : lexer) : Bool :=
  decide (l.iterator < l.m_tokens.length)

/-- `void reset() { iterator = 0; }` -/
def reset (l : lexer) : lexer :=
  { l with iterator := 0 }

/-- Modelled from the spec: `lexer::see_next` is only declared in `lexer.hpp`
("Return the next token without incrementing the iterator."). Spec, data
model: "`peek` returns the token at the cursor without advancing". A cursor
with no token under it is a buffer-contract violation: `none`. -/
def see_next (l : lexer) : Option token :=
  l.m_tokens[l.iterator]?

/-- Modelled from the spec: `lexer::next_token` is only declared in
`lexer.hpp` ("Return the next token and increment the iterator."). Spec, data
model: "`next` returns the token at the cursor and advances". The result is
the token together with the lexer after the call; `none` when there is no
token at the cursor. -/
def next_token (l : lexer) : Option (token × lexer) :=
  match l.m_tokens[l.iterator]? with
  | some t => some (t, { l with iterator := l.iterator + 1 })
  | none => none

/-- Modelled from the spec: `lexer::rollback_token` is only declared in
`lexer.hpp` ("Rollback the token iterator. The next call to next_token will
return the same token."). Spec, data model: "`rollback` moves the cursor back
one position", with the cursor "always in `[0, length]`"; moving it below 0
is a buffer-contract violation: `none`. -/
def rollback_token (l : lexer) : Option lexer :=
  if l.iterator = 0 then none
  else some { l with iterator := l.iterator - 1 }

/-- Modelled from the spec: `lexer::erase_tokens` is only declared in
`lexer.hpp` ("Erase a number of tokens starting from the current iterator.").
Spec, buffer-mutation contract: "`erase(count)` removes `count` tokens starting
at the cursor without moving it"; "erase count exceeds remaining tokens" is a
buffer-contract violation: `none`. -/
def erase_tokens (l : lexer) (count : Nat) : Option lexer :=
  if l.iterator + count ≤ l.m_tokens.length then
    some { l with
      m_tokens := l.m_tokens.take l.iterator ++ l.m_tokens.drop (l.iterator + count) }
  else none

/-- Modelled from the spec: `lexer::insert` is only declared in `lexer.hpp`
("Insert new tokens at the current iterator and update it."). Spec,
buffer-mutation contract: "`insert(tokens)` inserts the given sequence at the
cursor and advances the cursor past the inserted sequence"; a cursor outside
`[0, length]` is a buffer-contract violation: `none`. -/
def insert (l : lexer) (tokens : List token) : Option lexer :=
  if l.iterator ≤ l.m_tokens.length then
    some { l with
      m_tokens := l.m_tokens.take l.iterator ++ tokens ++ l.m_tokens.drop l.iterator
      iterator := l.iterator + tokens.length }
  else none

end lexer

/-! ## `lexer.hpp`: scanning

`lexer.hpp` declares the scanning members and gives the bodies of the two
templates `discard_while` and `read_while`; the other bodies are not among the
sources and are modelled from the specification's description of the scanning
algorithm. The text still to be scanned is a list of characters, threaded
through the functions together with `m_buffer` and `m_start`. -/

namespace lexer

/-- The members `m_current`, `m_buffer` and `m_start` of the lexer while it
scans. -/
structure scan_state where
  m_current : List Char
  m_buffer : List Char
  m_start : token_position
  deriving DecidableEq, Repr

/-- Modelled from the spec: what the scanning algorithm takes from fixed tables
that are neither in the sources nor in the specification's text: the
"fixed, externally-defined keyword set", the "fixed symbol table" (each symbol
is a delimiter, or an operator with its operator kind), which characters count
as an "embedded separator or exponent marker" of a number, how a numeric lexeme
is decoded "per its notation", and what an escape sequence decodes to. -/
structure tables where
  keywords : List String
  symbols : List (String × Option operator_type)
  numeric_mark : Char → Bool
  numeric_kind : String → token_kind
  escape : Char → Char

/-- Modelled from the spec: `lexer::update_position` is only declared ("Update
a position (line, column, offset)."). Spec, position tracking: "every consumed
character advances `column`; a newline character resets `column` to 0 (or 1,
pick one and be consistent) and increments `line`; `offset` always advances by
one byte/character per consumed character regardless of line breaks". Columns
start at 0 here, as the members of `token_position` do. -/
def update_position (position : token_position) (c : Char) : token_position :=
  if c = '\n' then
    { line := position.line + 1, column := 0, offset := position.offset + 1 }
  else
    { line := position.line, column := position.column + 1, offset := position.offset + 1 }

/-- The template `discard_while` of `lexer.hpp`:
`while(m_current.size() && condition(m_current.front())) { discard(); }`. The
body of `discard()` is not among the sources; it is taken as its declaration
describes it: "Discard the first character from the m_current and update the
start position." -/
def discard_while (condition : Char → Bool) :
    List Char → List Char → token_position → scan_state
  | [], m_buffer, m_start => { m_current := [], m_buffer := m_buffer, m_start := m_start }
  | c :: rest, m_buffer, m_start =>
    if condition c then discard_while condition rest m_buffer (update_position m_start c)
    else { m_current := c :: rest, m_buffer := m_buffer, m_start := m_start }

/-- The template `read_while` of `lexer.hpp`:
`while(m_current.size() && condition(m_current.front())) { read(); }`. The body
of `read()` is not among the sources; it is taken as its declaration describes
it: "Read the first character from the m_current, stores it in m_buffer and
update the start position." -/
def read_while (condition : Char → Bool) :
    List Char → List Char → token_position → scan_state
  | [], m_buffer, m_start => { m_current := [], m_buffer := m_buffer, m_start := m_start }
  | c :: rest, m_buffer, m_start =>
    if condition c then
      read_while condition rest (m_buffer ++ [c]) (update_position m_start c)
    else { m_current := c :: rest, m_buffer := m_buffer, m_start := m_start }

/-- Modelled from the spec: `read()`, whose body is not among the sources,
called `n` times and stopping early at the end of the text; it takes the
characters of a symbol of the symbol table. -/
def read_count : Nat → List Char → List Char → token_position → scan_state
  | 0, m_current, m_buffer, m_start =>
    { m_current := m_current, m_buffer := m_buffer, m_start := m_start }
  | _ + 1, [], m_buffer, m_start =>
    { m_current := [], m_buffer := m_buffer, m_start := m_start }
  | n + 1, c :: rest, m_buffer, m_start =>
    read_count n rest (m_buffer ++ [c]) (update_position m_start c)

/-- Modelled from the spec: the characters `discard_whitespaces()`, whose body
is not among the sources, discards ("discard leading whitespace"); they are
taken to be those of `isspace` in the "C" locale. -/
def is_whitespace (c : Char) : Bool :=
  c == ' ' || c == '\t' || c == '\n' || c == Char.ofNat 11 || c == Char.ofNat 12 || c == '\r'

/-- Modelled from the spec: "letter or underscore", the characters that start
an identifier in `read_next_token`. -/
def is_identifier_start (c : Char) : Bool :=
  c.isAlpha || c == '_'

/-- Modelled from the spec: the characters of "a maximal identifier run" in
`read_next_token`, taken to be letters, digits and the underscore. -/
def is_identifier_char (c : Char) : Bool :=
  c.isAlphanum || c == '_'

/-- Modelled from the spec: `lexer::push_token(start, type, kind, op)` is only
declared. The token made from `m_buffer`: it spans from `start` to the current
position, and carries the file name of the lexer. -/
def make_token (file_name : String) (start : token_position) (s : scan_state)
    (type : token_type) (kind : token_kind) (op : operator_type) : token :=
  { m_content := String.mk s.m_buffer, m_type := type, m_kind := kind, m_operator := op,
    string_literal := if kind = token_kind.token_string then String.mk s.m_buffer else "",
    m_file_name := file_name, start := start, «end» := s.m_start }

/-- Modelled from the spec: `lexer::extract_and_push_string` is only declared.
Spec, string extraction: it "scans until the matching unescaped quote;
recognizes the interpolation opener `$\x7b` when the outer quote is `"`, and
must track nested brace balance while inside an interpolation span so that a
closing brace inside a nested literal does not prematurely close it; decodes
standard escape sequences into the literal's content; reaching end-of-input
before the closing quote is a lexical error". The scan goes character by
character: `escaped` says the previous character was a backslash, `dollar`
that it was the `$` of a possible opener, `depth` counts the open braces of
the interpolation span, and `nested` is the quote of the nested literal the
scan is in. `none` is the unterminated string. -/
def extract_string (t : tables) (quote : Char) :
    Bool → Bool → Nat → Option Char → List Char → List Char → token_position →
      Option scan_state
  | _, _, _, _, [], _, _ => none
  | escaped, dollar, depth, nested, c :: rest, m_buffer, m_start =>
    let position := update_position m_start c
    if escaped then
      extract_string t quote false false depth nested rest (m_buffer ++ [t.escape c]) position
    else if c = '\\' then
      extract_string t quote true false depth nested rest m_buffer position
    else
      match nested with
      | some q =>
        extract_string t quote false false depth (if c = q then none else some q) rest
          (m_buffer ++ [c]) position
      | none =>
        if depth = 0 then
          if c = quote then
            some { m_current := rest, m_buffer := m_buffer, m_start := position }
          else if dollar ∧ c = '\x7b' then
            extract_string t quote false false 1 none rest (m_buffer ++ [c]) position
          else
            extract_string t quote false (decide (quote = '"' ∧ c = '$')) 0 none rest
              (m_buffer ++ [c]) position
        else if c = '\x7b' then
          extract_string t quote false false (depth + 1) none rest (m_buffer ++ [c]) position
        else if c = '\x7d' then
          extract_string t quote false false (depth - 1) none rest (m_buffer ++ [c]) position
        else if c = '"' ∨ c = '\'' then
          extract_string t quote false false depth (some c) rest (m_buffer ++ [c]) position
        else
          extract_string t quote false false depth none rest (m_buffer ++ [c]) position

/-- Modelled from the spec: the part of `read_next_token` that scans a block
comment after its opener "to ... closing `*/`", the closing characters
included; `star` says the previous character was `*`. `none` is the
unterminated comment of the error taxonomy. -/
def read_block_comment : Bool → List Char → List Char → token_position → Option scan_state
  | _, [], _, _ => none
  | star, c :: rest, m_buffer, m_start =>
    if star ∧ c = '/' then
      some { m_current := rest, m_buffer := m_buffer ++ [c],
             m_start := update_position m_start c }
    else
      read_block_comment (decide (c = '*')) rest (m_buffer ++ [c]) (update_position m_start c)

/-- Modelled from the spec: the part of `read_next_token` that looks a symbol
up. The entry of the symbol table to use at the head of `m_current` is, among
the non-empty symbols the text starts with, the longest one ("preferring the
longest matching multi-character operator"), the earlier entry on a tie. -/
def longest_symbol (symbols : List (String × Option operator_type)) (m_current : List Char) :
    Option (String × Option operator_type) :=
  symbols.foldl
    (fun best entry =>
      if entry.1.data ≠ [] ∧ entry.1.data.isPrefixOf m_current = true then
        match best with
        | none => some entry
        | some b => if b.1.data.length < entry.1.data.length then some entry else some b
      else best)
    none

/-- Modelled from the spec: a lexical error, "raised at the offending
position": what is wrong and where. -/
structure lexical_error where
  what : String
  position : token_position
  deriving DecidableEq, Repr

/-- Modelled from the spec: `lexer::read_next_token` is only declared. Spec,
scanning algorithm, step 2, "classify by leading character": a letter or
underscore starts a maximal identifier run, emitted as keyword or identifier; a
digit starts a maximal numeric run, emitted as a literal; a quote starts string
extraction; `/` followed by `/` or `*` starts a comment, scanned to the end of
the line or to the closing `*/` and emitted as a comment token; `#` starts a
preprocessor directive, scanned to the end of the line; a recognized symbol is
emitted as delimiter or operator; "anything unrecognized" fails with a lexical
error. The result is the token and the scanning state after it. -/
def read_next_token (t : tables) (file_name : String) (m_start : token_position) :
    List Char → Except lexical_error (token × scan_state)
  | [] => Except.error { what := "unexpected end of input", position := m_start }
  | c :: rest =>
    let start := m_start
    let after := update_position m_start c
    if is_identifier_start c then
      let s := read_while is_identifier_char rest [c] after
      Except.ok
        (make_token file_name start s
          (if String.mk s.m_buffer ∈ t.keywords then token_type.token_keyword
           else token_type.token_identifier)
          token_kind.token_null operator_type.operator_max, s)
    else if c.isDigit then
      let s := read_while (fun x => x.isDigit || t.numeric_mark x) rest [c] after
      Except.ok
        (make_token file_name start s token_type.token_literal
          (t.numeric_kind (String.mk s.m_buffer)) operator_type.operator_max, s)
    else if c = '"' ∨ c = '\'' then
      match extract_string t c false false 0 none rest [] after with
      | none => Except.error { what := "unterminated string", position := start }
      | some s =>
        Except.ok
          (make_token file_name start s token_type.token_literal token_kind.token_string
            operator_type.operator_max, s)
    else if c = '/' ∧ rest.head? = some '/' then
      let s := read_while (fun x => x != '\n') rest [c] after
      Except.ok
        (make_token file_name start s token_type.token_comment token_kind.token_null
          operator_type.operator_max, s)
    else if c = '/' ∧ rest.head? = some '*' then
      match read_block_comment false (rest.drop 1) [c, '*'] (update_position after '*') with
      | none => Except.error { what := "unterminated comment", position := start }
      | some s =>
        Except.ok
          (make_token file_name start s token_type.token_comment token_kind.token_null
            operator_type.operator_max, s)
    else if c = '#' then
      let s := read_while (fun x => x != '\n') rest [c] after
      Except.ok
        (make_token file_name start s token_type.token_preprocessor token_kind.token_null
          operator_type.operator_max, s)
    else
      match longest_symbol t.symbols (c :: rest) with
      | none => Except.error { what := "unrecognized character", position := start }
      | some entry =>
        let s := read_count entry.1.data.length (c :: rest) [] m_start
        Except.ok
          (make_token file_name start s
            (match entry.2 with
             | none => token_type.token_delimiter
             | some _ => token_type.token_operator)
            token_kind.token_null
            (match entry.2 with
             | none => operator_type.operator_max
             | some op => op), s)

/-- Modelled from the spec: the end-of-file token `tokenize` appends, "exactly
one end-of-file token whose span is empty and positioned at the final
offset". -/
def eof_token (file_name : String) (position : token_position) : token :=
  { m_content := "", m_type := token_type.token_eof, m_kind := token_kind.token_null,
    m_operator := operator_type.operator_max, string_literal := "", m_file_name := file_name,
    start := position, «end» := position }

end lexer

/-- Modelled from the spec: how a call of `lexer::tokenize` ends. It completes,
or it fails with a lexical error, in both cases leaving the lexer with the
tokens pushed so far; the third case is the bound on the number of rounds of
the loop being reached, which is proved below never to happen. -/
inductive tokenize_result where
  | completed (l : lexer)
  | failed (error : lexer.lexical_error) (l : lexer)
  | out_of_fuel
  deriving DecidableEq, Repr

namespace lexer

/-- Modelled from the spec: the loop of `lexer::tokenize`, whose body is not
among the sources, followed for at most `fuel` rounds. Spec, scanning
algorithm: step 1, "discard leading whitespace; record `start_position` at the
first non-whitespace character"; step 2, scan one token and append it; step 3,
"on source exhaustion, append exactly one end-of-file token". -/
def tokenize_loop (t : tables) (file_name source : String) :
    Nat → List Char → token_position → List token → tokenize_result
  | 0, _, _, _ => tokenize_result.out_of_fuel
  | fuel + 1, m_current, m_start, m_tokens =>
    let s := discard_while is_whitespace m_current [] m_start
    match s.m_current with
    | [] =>
      tokenize_result.completed
        { m_file_name := file_name, m_source := source, m_current := "", m_buffer := "",
          m_tokens := m_tokens ++ [eof_token file_name s.m_start], m_start := s.m_start,
          iterator := 0 }
    | c :: rest =>
      match read_next_token t file_name s.m_start (c :: rest) with
      | Except.error e =>
        tokenize_result.failed e
          { m_file_name := file_name, m_source := source, m_current := String.mk (c :: rest),
            m_buffer := "", m_tokens := m_tokens, m_start := s.m_start, iterator := 0 }
      | Except.ok (token, s2) =>
        tokenize_loop t file_name source fuel s2.m_current s2.m_start (m_tokens ++ [token])

/-- Modelled from the spec: `lexer::tokenize(__file_name, __source)` is only
declared ("Tokenize the source code. Equivalent to the constructor."). It runs
the scanning loop over the whole source from position (0, 0, 0) with an empty
token buffer. Every scanned token takes at least one character, so one more
round than the source has characters is enough. -/
def tokenize (t : tables) (file_name source : String) : tokenize_result :=
  tokenize_loop t file_name source (source.data.length + 1) source.data {} []

end lexer

/-! ## `parser.hpp`: AST nodes

The header still spells the namespace `uva::lang`; `analyzer.cpp` uses the
same class as `andy::lang::parser`. -/

namespace parser

/-- The enum `parser::ast_node_type`. -/
inductive ast_node_type where
  | ast_node_undefined
  | ast_node_unit
  | ast_node_expansion
  | ast_node_context
  | ast_node_classdecl
  | ast_node_classdecl_base
  | ast_node_fn_decl
  | ast_node_fn_return
  | ast_node_fn_call
  | ast_node_fn_params
  | ast_node_fn_object
  | ast_node_valuedecl
  | ast_node_arraydecl
  | ast_node_dictionarydecl
  | ast_node_vardecl
  | ast_node_foreach
  | ast_node_decltype
  | ast_node_declname
  | ast_node_conditional
  | ast_node_condition
  deriving DecidableEq, Repr

/-- The class `parser::ast_node`: its three data members `m_token`, `m_type`
and `m_children`. -/
inductive ast_node where
  | mk (m_token : lexer.token) (m_type : ast_node_type) (m_children : List ast_node)

namespace ast_node

/-- `const token& token() const { return m_token; }` -/
def token : ast_node → lexer.token
  | mk m_token _ _ => m_token

/-- `ast_node_type type() const { return m_type; }` -/
def type : ast_node → ast_node_type
  | mk _ m_type _ => m_type

/-- `const std::vector<ast_node>& childrens() const { return m_children; }` -/
def childrens : ast_node → List ast_node
  | mk _ _ m_children => m_children

/-- `ast_node() : m_type(ast_node_type::ast_node_undefined) {}` -/
def new : ast_node :=
  mk lexer.token.default_token ast_node_type.ast_node_undefined []

/-- `ast_node(ast_node_type __type) : m_type(__type) {}` -/
def of_type (__type : ast_node_type) : ast_node :=
  mk lexer.token.default_token __type []

/-- `ast_node(token __token, ast_node_type __type) : m_token(__token), m_type(__type) {}` -/
def of_token (__token : lexer.token) (__type : ast_node_type) : ast_node :=
  mk __token __type []

/-- `bool is_undefined() const { return m_type == ast_node_type::ast_node_undefined; }` -/
def is_undefined (n : ast_node) : Bool :=
  decide (n.type = ast_node_type.ast_node_undefined)

/-- `void add_child(ast_node child) { m_children.push_back(std::move(child)); }` -/
def add_child : ast_node → ast_node → ast_node
  | mk m_token m_type m_children, child => mk m_token m_type (m_children ++ [child])

/-- `void set_type(ast_node_type __type) { m_type = __type; }` -/
def set_type : ast_node → ast_node_type → ast_node
  | mk m_token _ m_children, __type => mk m_token __type m_children

/-- `void set_token(token __token) { m_token = std::move(__token); }` -/
def set_token : ast_node → lexer.token → ast_node
  | mk _ m_type m_children, __token => mk __token m_type m_children

/-- The loop of `child_from_type` over the remaining children:
`for(auto& child : m_children) { if(child.type() == __type) return &child; }`
and `return nullptr;` once they are exhausted. -/
def child_from_type_loop (__type : ast_node_type) : List ast_node → Option ast_node
  | [] => none
  | child :: rest =>
    if child.type = __type then some child else child_from_type_loop __type rest

/-- `const ast_node* child_from_type(const ast_node_type& __type) const`; the
non-const overload has the same body. `nullptr` is `none`. -/
def child_from_type (n : ast_node) (__type : ast_node_type) : Option ast_node :=
  child_from_type_loop __type n.childrens

/-- `return &child_from_type(__type)->token();`: the token of the child found.
When `child_from_type` returns `nullptr` the member access goes through a null
pointer and there is no token to read: `none`. -/
def child_token_from_type (n : ast_node) (__type : ast_node_type) : Option lexer.token :=
  match n.child_from_type __type with
  | some child => some child.token
  | none => none

/-- `return child_token_from_type(__type)->content();` -/
def child_content_from_type (n : ast_node) (__type : ast_node_type) : Option String :=
  match n.child_token_from_type __type with
  | some t => some t.content
  | none => none

/-- `return child_content_from_type(ast_node_type::ast_node_declname);` -/
def decname (n : ast_node) : Option String :=
  n.child_content_from_type ast_node_type.ast_node_declname

/-- `return child_content_from_type(ast_node_type::ast_node_valuedecl);` -/
def value (n : ast_node) : Option String :=
  n.child_content_from_type ast_node_type.ast_node_valuedecl

/-- `return child_from_type(ast_node_type::ast_node_condition);` -/
def condition (n : ast_node) : Option ast_node :=
  n.child_from_type ast_node_type.ast_node_condition

/-- `return child_from_type(ast_node_type::ast_node_context);` -/
def block (n : ast_node) : Option ast_node :=
  n.child_from_type ast_node_type.ast_node_context

end ast_node

end parser

/-! ## `analyzer.cpp`: the report

The harness writes its report to standard output as JSON text. The embedding
keeps the data of the report and not its punctuation: each structure below is
one JSON object the code writes, field by field, and each list is one JSON
array in the order the loop writes it. -/

namespace analyzer

open lexer parser

/-- The NUL character that terminates the text of a `std::string`. -/
def NUL : Char :=
  Char.ofNat 0

/-- `isspace` of `<cctype>` in the "C" locale: space, `\t`, `\n`, `\v`,
`\f`, `\r`. -/
def isspace (c : Char) : Bool :=
  c == ' ' || c == '\t' || c == '\n' || c == Char.ofNat 11 || c == Char.ofNat 12 || c == '\r'

/-- `std::string_view::find(pat)`: the index of the first occurrence of `pat`
in `s`, and `none` for `npos`. -/
def find (pat : List Char) : List Char → Option Nat
  | [] => if pat.isPrefixOf [] then some 0 else none
  | c :: rest =>
    if pat.isPrefixOf (c :: rest) then some 0
    else
      match find pat rest with
      | some i => some (i + 1)
      | none => none

/-- One object of the "tokens" array. -/
structure token_entry where
  file : String
  line : Nat
  column : Nat
  offset : Nat
  length : Nat
  type : String
  deriving DecidableEq, Repr

/-- One object of the "linter" array, as `write_linter_warning` writes it. -/
structure linter_warning where
  type : String
  message : String
  file : String
  line : Nat
  column : Nat
  offset : Nat
  length : Nat
  deriving DecidableEq, Repr

/-- One object of a "references" array. -/
structure reference where
  file : String
  line : Nat
  column : Nat
  offset : Nat
  deriving DecidableEq, Repr

/-- One object of the "declarations" array. -/
structure declaration where
  type : String
  name : String
  file : String
  line : Nat
  column : Nat
  offset : Nat
  references : List reference
  deriving DecidableEq, Repr

/-- `write_path` outside Windows: `std::cout << path;`. -/
def write_path (path : String) : String :=
  path

/-- `write_linter_warning(type, message, file_name, start, length)`: the object
written; the counter `num_linter_warnings` it increments is the length of the
list of objects written so far and only decides where a comma goes. -/
def write_linter_warning (type message file_name : String) (start : token_position)
    (length : Nat) : linter_warning :=
  { type := type, message := message, file := file_name, line := start.line,
    column := start.column, offset := start.offset, length := length }

/-- The outcome of the call `p.parse_all(l)`, whose body is not among the
sources: it either returns the root node or leaves by a `std::exception`. In
both cases `l`, passed by reference, is left in some state. `built` is the
unit node `parse_all` had collected when the exception left it; the caller
never receives it. -/
inductive parse_outcome where
  | returned (root : ast_node) (l : lexer)
  | threw (built : ast_node) (l : lexer)

/-- The lexer after the call `p.parse_all(l)`. -/
def parse_outcome.lexer_after : parse_outcome → lexer
  | returned _ l => l
  | threw _ l => l

/-- The functions `main` calls whose bodies are not among the sources. Each is
taken as it is seen from `main`. -/
structure collaborators where
  /-- The lexer `l` after `try { l.tokenize(file_path_str, source); } catch (const std::exception& e) {}`. -/
  tokenize : String → String → lexer
  /-- The lexer after `preprocessor.process(file_path, l)`, which is taken to return. -/
  process : String → lexer → lexer
  /-- The call `p.parse_all(l)`. -/
  parse_all : lexer → parse_outcome
  /-- The text `l.source(token)`. -/
  source : lexer → token → String
  /-- The text `token.human_type()`. -/
  human_type : token → String
  /-- The milliseconds between the two readings of the clock. -/
  elapsed : Nat

/-- The body of the first loop over `l.tokens()`: the object written for one
token. `token.end.offset - token.start.offset` is a `size_t` subtraction. -/
def token_entry_of (c : collaborators) (token : token) : token_entry :=
  { file := write_path token.m_file_name, line := token.start.line,
    column := token.start.column, offset := token.start.offset,
    length := (token.«end».offset + 2 ^ 64 - token.start.offset) % 2 ^ 64,
    type := c.human_type token }

/-- The `while` loop of the token-level linting once it is entered, over the
characters from `end_it` on; the text is followed by its NUL terminator
(reading past it is not defined and is given as NUL too). It returns
`has_whitespace` and the character `*end_it` at which the loop stopped.
`has_whitespace` is an `int` in the code and a `Nat` here: the two agree while
fewer than 2^31 whitespace characters follow a token. -/
def trailing_whitespace_loop : Nat → List Char → Nat × Char
  | has_whitespace, [] => (has_whitespace, NUL)
  | has_whitespace, c :: rest =>
    if c = '\n' ∨ c = NUL then (has_whitespace, c)
    else if isspace c then trailing_whitespace_loop (has_whitespace + 1) rest
    else (has_whitespace, c)

/-- The character `source[i]`, the NUL terminator included. -/
def char_at (source : String) (i : Nat) : Char :=
  source.data.getD i NUL

/-- The body of the second loop over `l.tokens()`: the warnings written for
one token, the trailing-whitespace one first. `while(end_it != source.data())`
is entered exactly when `end_offset` is not 0. -/
def lint_token (c : collaborators) (l : lexer) (token : token) : List linter_warning :=
  let offset := token.start.offset
  let end_offset := token.«end».offset
  let source := c.source l token
  let scan : Nat × Char :=
    if end_offset = 0 then (0, char_at source 0)
    else trailing_whitespace_loop 0 (source.data.drop end_offset)
  let trailing : List linter_warning :=
    if scan.1 ≠ 0 ∧ (scan.2 = '\n' ∨ scan.2 = NUL) then
      [write_linter_warning "trailing-whitespace" "Trailing whitespace" token.m_file_name
        token.«end» scan.1]
    else []
  let quotes : List linter_warning :=
    if token.type = token_type.token_literal ∧ token.kind = token_kind.token_string ∧
        char_at source offset = '"' ∧ find "$\x7b".data token.content.data = none then
      [write_linter_warning "string-default-single-quotes"
        "String literal without interpolation should use single quotes" token.m_file_name
        token.start (token.content.length + 2)]
    else []
  trailing ++ quotes

/-- The second loop over `l.tokens()` ("Token level linting"). -/
def linter_section (c : collaborators) (l : lexer) : List token → List linter_warning
  | [] => []
  | token :: rest => lint_token c l token ++ linter_section c l rest

/-- The inner loop of the declarations section,
`for(const auto& token : l.tokens())`: one reference for every identifier token
whose content equals the content of `decname_token`. -/
def references_loop (decname_token : token) : List token → List reference
  | [] => []
  | token :: rest =>
    if token.type = token_type.token_identifier then
      if token.content = decname_token.content then
        { file := write_path token.m_file_name, line := token.start.line,
          column := token.start.column, offset := token.start.offset }
          :: references_loop decname_token rest
      else references_loop decname_token rest
    else references_loop decname_token rest

/-- The object written for one class-declaration node whose name-declaration
token is `decname_token`: the name, the location of that token, and the
references found by the inner loop. -/
def class_declaration (l : lexer) (decname_token : token) : declaration :=
  { type := "class", name := decname_token.content,
    file := write_path decname_token.m_file_name,
    line := decname_token.start.line, column := decname_token.start.column,
    offset := decname_token.start.offset,
    references := references_loop decname_token l.tokens }

/-- The outer loop of the declarations section,
`for(const auto& node : root_node.childrens())`. For a class-declaration node
`decname_node->token()` is read without a null check: when the node has no
name-declaration child the loop has no defined result, `none`. -/
def declarations_loop (l : lexer) : List ast_node → Option (List declaration)
  | [] => some []
  | node :: rest =>
    if node.type = ast_node_type.ast_node_classdecl then
      match node.child_from_type ast_node_type.ast_node_declname with
      | none => none
      | some decname_node =>
        let decname_token := decname_node.token
        match declarations_loop l rest with
        | none => none
        | some ds =>
          some (class_declaration l decname_token :: ds)
    else declarations_loop l rest

/-- The declarations section for the lexer `l` and the node `root_node`. -/
def declarations_section (l : lexer) (root_node : ast_node) : Option (List declaration) :=
  declarations_loop l root_node.childrens

/-- The variable `root_node` after
`ast_node root_node; try { root_node = p.parse_all(l); } catch (const std::exception& e) {}`:
the assignment happens only when `parse_all` returns. -/
def root_node_after : parse_outcome → ast_node
  | parse_outcome.returned root _ => root
  | parse_outcome.threw _ _ => ast_node.new

/-! ## `analyzer.cpp`: `main` -/

/-- What the process sees of the file system: `std::filesystem::absolute`,
`exists`, `is_regular_file` and `uva::file::read_all_text`. Each of these calls
either returns a value or leaves by an exception (`absolute` on an empty path
and `exists` on an over-long name throw `std::filesystem::filesystem_error`):
`none`. `main` makes all four calls outside its `try` blocks, so such an
exception is caught by nothing and the process is aborted. -/
structure environment where
  absolute : String → Option String
  «exists» : String → Option Bool
  is_regular_file : String → Option Bool
  read_all_text : String → Option String

/-- The observable steps of `main`, in the order they happen. The four `cout`
steps are the four parts of one report. -/
inductive event where
  | cerr (text : String)
  | read_all_text (path : String)
  | tokenize (file_name source : String)
  | process (file_path : String)
  | cout_tokens (entries : List token_entry)
  | cout_linter (warnings : List linter_warning)
  | parse_all
  | cout_declarations (entries : List declaration)
  | cout_elapsed (ms : Nat)
  deriving DecidableEq, Repr

/-- Whether the step writes to standard output. -/
def event.is_cout : event → Bool
  | event.cout_tokens _ => true
  | event.cout_linter _ => true
  | event.cout_declarations _ => true
  | event.cout_elapsed _ => true
  | _ => false

/-- The contents of the "declarations" arrays among the steps, in order. -/
def declarations_written : List event → List (List declaration)
  | [] => []
  | event.cout_declarations entries :: rest => entries :: declarations_written rest
  | _ :: rest => declarations_written rest

/-- How one pass through the body of `while(run)` ends: it reaches the end of
the body, it calls `exit(code)`, it reads through a null pointer, or an
exception that nothing catches ends the process (`std::terminate`, which
aborts: no exit status of the program's choosing, no message of its own). -/
inductive request_status where
  | completed
  | exit (code : Nat)
  | undefined
  | aborted
  deriving DecidableEq, Repr

/-- The steps of one pass through the body of `while(run)` and how it ends. -/
structure request_result where
  events : List event
  status : request_status
  deriving DecidableEq, Repr

/-- The rest of the body of `while(run)` once the source text has been read:
`tokenize`, the preprocessor, the three sections of the report and the elapsed
time. `before` holds the steps already taken. -/
def report (c : collaborators) (before : List event) (file_path source : String) :
    request_result :=
  let l := c.tokenize file_path source
  let l := c.process file_path l
  let before_parse : List event :=
    before ++
      [event.tokenize file_path source, event.process file_path,
       event.cout_tokens (l.tokens.map (token_entry_of c)),
       event.cout_linter (linter_section c l l.tokens), event.parse_all]
  let outcome := c.parse_all l
  let root_node := root_node_after outcome
  let l := outcome.lexer_after
  match declarations_section l root_node with
  | none => { events := before_parse, status := request_status.undefined }
  | some entries =>
    { events := before_parse ++ [event.cout_declarations entries, event.cout_elapsed c.elapsed],
      status := request_status.completed }

/-- The body of `while(run)` from `file_path = absolute(arg0)` on, for the
values of `arg0` and `arg1` of this pass. Both calls of `absolute` come first,
then the two checks on `file_path`, then the read of `temp_file_path`; a call
that throws ends the pass there, with the process aborted. -/
def request (env : environment) (c : collaborators) (arg0 arg1 : String) : request_result :=
  match env.absolute arg0 with
  | none => { events := [], status := request_status.aborted }
  | some file_path =>
    match env.absolute arg1 with
    | none => { events := [], status := request_status.aborted }
    | some temp_file_path =>
      match env.«exists» file_path with
      | none => { events := [], status := request_status.aborted }
      | some false =>
        { events := [event.cerr ("input file '" ++ file_path ++ "' does not exist")],
          status := request_status.exit 1 }
      | some true =>
        match env.is_regular_file file_path with
        | none => { events := [], status := request_status.aborted }
        | some false =>
          { events := [event.cerr ("input file '" ++ file_path ++ "' is not a regular file")],
            status := request_status.exit 1 }
        | some true =>
          match env.read_all_text temp_file_path with
          | none =>
            { events := [event.read_all_text temp_file_path],
              status := request_status.aborted }
          | some source => report c [event.read_all_text temp_file_path] file_path source

/-- The state of `std::cin`: the characters not yet read and the two state
bits `std::getline` looks at and sets. -/
structure istream where
  chars : List Char
  eofbit : Bool
  failbit : Bool
  deriving DecidableEq, Repr

/-- `std::getline(std::cin, str)`: the stream and `str` after the call. On a
stream that is not good only `failbit` is set and `str` is left as it was.
Otherwise `str` is erased and filled up to the next line feed, which is
removed from the stream; running into the end sets `eofbit`, and `failbit` too
when nothing was extracted. -/
def getline (cin : istream) (str : String) : istream × String :=
  if cin.eofbit || cin.failbit then ({ cin with failbit := true }, str)
  else
    match cin.chars.span (fun ch => ch != '\n') with
    | (line, _ :: rest) => ({ cin with chars := rest }, String.mk line)
    | (line, []) => ({ chars := [], eofbit := true, failbit := line.isEmpty }, String.mk line)

/-- How the process stands: `main` returned or `exit` was called with a
status, a null pointer was read, an uncaught exception aborted the process, or
the loop is still running after the number of passes looked at. -/
inductive process_status where
  | exited (code : Nat)
  | undefined
  | aborted
  | running
  deriving DecidableEq, Repr

/-- The steps of the process and how it stands. -/
structure outcome where
  events : List event
  status : process_status
  deriving DecidableEq, Repr

/-- The `while(run)` loop with `is_server` true, for at most `passes` passes:
each pass reads `arg0` and `arg1` with `std::getline` and runs the body. The
loop has no exit of its own; it ends when a pass calls `exit`. -/
def serve (env : environment) (c : collaborators) :
    Nat → istream → String → String → outcome
  | 0, _, _, _ => { events := [], status := process_status.running }
  | passes + 1, cin, arg0, arg1 =>
    let r0 := getline cin arg0
    let r1 := getline r0.1 arg1
    let r := request env c r0.2 r1.2
    match r.status with
    | request_status.exit code => { events := r.events, status := process_status.exited code }
    | request_status.undefined => { events := r.events, status := process_status.undefined }
    | request_status.aborted => { events := r.events, status := process_status.aborted }
    | request_status.completed =>
      let later := serve env c passes r1.1 r0.2 r1.2
      { events := r.events ++ later.events, status := later.status }

/-- `arg.starts_with("--")`. -/
def starts_with_dashes (arg : String) : Bool :=
  "--".data.isPrefixOf arg.data

/-- The loop over `argv[1]`, ..., `argv[argc - 1]`: it returns `is_server` and
the vector `args`, starting from the values given. -/
def scan_arguments : Bool → List String → List String → Bool × List String
  | is_server, args, [] => (is_server, args)
  | is_server, args, arg :: rest =>
    if starts_with_dashes arg then
      if arg = "--server" then scan_arguments true args rest
      else scan_arguments is_server args rest
    else scan_arguments is_server (args ++ [arg]) rest

/-- The function `main` for the argument vector `argv` (the program name
first) and the standard input `cin`; in server mode at most `passes` passes of
the loop are followed. -/
def main (env : environment) (c : collaborators) (argv : List String) (cin : istream)
    (passes : Nat) : outcome :=
  let scanned := scan_arguments false [] (argv.drop 1)
  let is_server := scanned.1
  let args := scanned.2
  if is_server then
    if args.length > 0 then
      { events := [event.cerr
          "andy-analyzer --server takes no arguments. Write <input-file>\\n<temp-file>\\n to stdin"],
        status := process_status.exited 1 }
    else serve env c passes cin "" ""
  else
    match args with
    | [] =>
      { events := [event.cerr "andy-analyzer <input-file> [temp-file] or andy-analyzer --server"],
        status := process_status.exited 1 }
    | arg0 :: more =>
      let arg1 := match more with
        | [] => arg0
        | second :: _ => second
      let r := request env c arg0 arg1
      match r.status with
      | request_status.exit code => { events := r.events, status := process_status.exited code }
      | request_status.undefined => { events := r.events, status := process_status.undefined }
      | request_status.aborted => { events := r.events, status := process_status.aborted }
      | request_status.completed => { events := r.events, status := process_status.exited 0 }

end analyzer

/-! ## The specification's wording, for comparison -/

namespace analyzer

open lexer parser

/-- The references of a declaration as the specification words them: the
identifier tokens "elsewhere in the file", that is other than the
declaration's own name token, whose content equals the class name, in buffer
order. -/
def references_elsewhere (decname_token : token) (tokens : List token) : List reference :=
  (tokens.filter (fun t =>
    decide (t.type = token_type.token_identifier ∧ t ≠ decname_token ∧
      t.content = decname_token.content))).map
    (fun t => { file := t.m_file_name, line := t.start.line, column := t.start.column,
                offset := t.start.offset })

end analyzer

/-! ## Concrete inputs used below -/

namespace examples

open lexer parser analyzer

/-- A token of the file `a.andy` on line 0 with the given text, classification
and start offset. -/
def tok (content : String) (type : token_type) (offset : Nat) : token :=
  { m_content := content, m_type := type, m_kind := token_kind.token_null,
    m_operator := operator_type.operator_max, string_literal := "", m_file_name := "a.andy",
    start := { line := 0, column := offset, offset := offset },
    «end» := { line := 0, column := offset + content.length,
               offset := offset + content.length } }

/-- The buffer of `class Foo {} Foo`: the name of the class is the token at
offset 6 and the class is used once more at offset 13. -/
def class_tokens : List token :=
  [tok "class" token_type.token_keyword 0, tok "Foo" token_type.token_identifier 6,
   tok "\x7b" token_type.token_delimiter 10, tok "\x7d" token_type.token_delimiter 11,
   tok "Foo" token_type.token_identifier 13, tok "" token_type.token_eof 16]

/-- Small tables for the scanner: two keywords, the braces and parentheses as
delimiters, `=`, `==`, `*`, `**` and `/` as operators, the dot as numeric
mark, and `\\n` as the only escape that is not the character itself. -/
def small_tables : tables :=
  { keywords := ["class", "fn"],
    symbols := [("\x7b", none), ("\x7d", none), ("(", none), (")", none),
                ("=", some operator_type.operator_null),
                ("==", some operator_type.operator_equal),
                ("*", some operator_type.operator_multiply),
                ("**", some operator_type.operator_power),
                ("/", some operator_type.operator_divide)],
    numeric_mark := fun c => c == '.',
    numeric_kind := fun text =>
      if text.data.contains '.' then token_kind.token_double else token_kind.token_integer,
    escape := fun c => if c = 'n' then '\n' else c }

/-- The source `class Foo` followed by a pair of braces: twelve characters. -/
def braces_source : String :=
  "class Foo \x7b\x7d"

/-- The lexer after tokenizing `braces_source` with `small_tables`. -/
def braces_lexer : lexer :=
  { m_file_name := "a.andy", m_source := braces_source, m_current := "", m_buffer := "",
    m_tokens := [tok "class" token_type.token_keyword 0,
                 tok "Foo" token_type.token_identifier 6,
                 tok "\x7b" token_type.token_delimiter 10,
                 tok "\x7d" token_type.token_delimiter 11,
                 tok "" token_type.token_eof 12],
    m_start := { line := 0, column := 12, offset := 12 }, iterator := 0 }

/-- The buffer `[A, B, C, EOF]` of the insert/erase contract. -/
def abc_tokens : List token :=
  [tok "A" token_type.token_identifier 0, tok "B" token_type.token_identifier 2,
   tok "C" token_type.token_identifier 4, tok "" token_type.token_eof 5]

/-- A lexer holding `tokens` with the cursor at `iterator`. -/
def lexer_of (tokens : List token) (iterator : Nat) : lexer :=
  { m_file_name := "a.andy", m_source := "", m_current := "", m_buffer := "",
    m_tokens := tokens, m_start := {}, iterator := iterator }

/-- The class-declaration node of `class Foo {}`: a name-declaration child
carrying the token `Foo` at offset 6 and an empty context. -/
def class_node : ast_node :=
  ast_node.mk lexer.token.default_token ast_node_type.ast_node_classdecl
    [ast_node.of_token (tok "Foo" token_type.token_identifier 6)
       ast_node_type.ast_node_declname,
     ast_node.of_type ast_node_type.ast_node_context]

/-- The unit node whose only child is `class_node`. -/
def class_unit : ast_node :=
  ast_node.mk lexer.token.default_token ast_node_type.ast_node_unit [class_node]

/-- A unit node whose only child is a class declaration without any child. -/
def nameless_unit : ast_node :=
  ast_node.mk lexer.token.default_token ast_node_type.ast_node_unit
    [ast_node.of_type ast_node_type.ast_node_classdecl]

/-- A file system in which only `a.andy` exists, as a regular file; every read
gives the text `class Foo`, a line feed, and an opening brace. The names in it
are taken to be absolute already, so `absolute` returns a name as it is, except
for the empty name, on which it throws. -/
def one_file : environment :=
  { absolute := fun path => if path = "" then none else some path,
    «exists» := fun path => some (path == "a.andy"),
    is_regular_file := fun path => some (path == "a.andy"),
    read_all_text := fun _ => some "class Foo\n\x7b" }

/-- Collaborators for the text of `one_file`: the tokens `class`, `Foo` and the
opening brace are found, and `parse_all` throws at the end of the file after it
had collected the class `Foo` (its block is never closed). -/
def failing_parse : collaborators :=
  { tokenize := fun _ _ =>
      lexer_of [tok "class" token_type.token_keyword 0,
                tok "Foo" token_type.token_identifier 6,
                tok "\x7b" token_type.token_delimiter 10,
                tok "" token_type.token_eof 11] 0,
    process := fun _ l => l,
    parse_all := fun l => parse_outcome.threw class_unit { l with iterator := 4 },
    source := fun l _ => l.m_source,
    human_type := fun _ => "",
    elapsed := 0 }

end examples

end andy.lang

/-! # Properties -/

namespace andy.lang

open lexer parser

/-! ## Helper lemmas -/

theorem child_from_type_loop_eq_find (K : ast_node_type) (cs : List ast_node) :
    ast_node.child_from_type_loop K cs = cs.find? (fun c => decide (c.type = K)) := by
  induction cs with
  | nil => rfl
  | cons c rest ih =>
    by_cases h : c.type = K
    · simp [ast_node.child_from_type_loop, h]
    · simp [ast_node.child_from_type_loop, h, ih]

theorem child_from_type_loop_eq_some (K : ast_node_type) (cs : List ast_node) (c : ast_node) :
    ast_node.child_from_type_loop K cs = some c ↔
      ∃ before after, cs = before ++ c :: after ∧ c.type = K ∧
        ∀ d ∈ before, d.type ≠ K := by
  rw [child_from_type_loop_eq_find, List.find?_eq_some]
  constructor
  · rintro ⟨hc, before, after, hcs, hb⟩
    exact ⟨before, after, hcs, by simpa using hc, fun d hd => by simpa using hb d hd⟩
  · rintro ⟨before, after, hcs, hc, hb⟩
    exact ⟨by simpa using hc, before, after, hcs, fun d hd => by simpa using hb d hd⟩

theorem child_from_type_loop_eq_none (K : ast_node_type) (cs : List ast_node) :
    ast_node.child_from_type_loop K cs = none ↔ ∀ d ∈ cs, d.type ≠ K := by
  rw [child_from_type_loop_eq_find, List.find?_eq_none]
  simp

/-! ### Scanning: every step accounts for the characters it takes -/

theorem update_position_offset (position : token_position) (c : Char) :
    (update_position position c).offset = position.offset + 1 := by
  unfold update_position
  split <;> rfl

theorem discard_while_bounds (condition : Char → Bool) (m_current m_buffer : List Char)
    (m_start : token_position) :
    (discard_while condition m_current m_buffer m_start).m_current.length ≤ m_current.length ∧
    (discard_while condition m_current m_buffer m_start).m_start.offset +
        (discard_while condition m_current m_buffer m_start).m_current.length =
      m_start.offset + m_current.length := by
  induction m_current generalizing m_buffer m_start with
  | nil => simp [discard_while]
  | cons c rest ih =>
    by_cases hc : condition c = true
    · have h := ih m_buffer (update_position m_start c)
      rw [update_position_offset] at h
      simp only [discard_while, hc, if_true, List.length_cons]
      omega
    · simp [discard_while, hc]

theorem read_while_bounds (condition : Char → Bool) (m_current m_buffer : List Char)
    (m_start : token_position) :
    (read_while condition m_current m_buffer m_start).m_current.length ≤ m_current.length ∧
    (read_while condition m_current m_buffer m_start).m_start.offset +
        (read_while condition m_current m_buffer m_start).m_current.length =
      m_start.offset + m_current.length := by
  induction m_current generalizing m_buffer m_start with
  | nil => simp [read_while]
  | cons c rest ih =>
    by_cases hc : condition c = true
    · have h := ih (m_buffer ++ [c]) (update_position m_start c)
      rw [update_position_offset] at h
      simp only [read_while, hc, if_true, List.length_cons]
      omega
    · simp [read_while, hc]

theorem read_count_bounds (n : Nat) (m_current m_buffer : List Char)
    (m_start : token_position) :
    (read_count n m_current m_buffer m_start).m_current.length ≤ m_current.length ∧
    (read_count n m_current m_buffer m_start).m_start.offset +
        (read_count n m_current m_buffer m_start).m_current.length =
      m_start.offset + m_current.length ∧
    (0 < n → m_current ≠ [] →
      (read_count n m_current m_buffer m_start).m_current.length < m_current.length) := by
  induction n generalizing m_current m_buffer m_start with
  | zero => simp [read_count]
  | succ n ih =>
    cases m_current with
    | nil => simp [read_count]
    | cons c rest =>
      have h := ih rest (m_buffer ++ [c]) (update_position m_start c)
      rw [update_position_offset] at h
      simp only [read_count, List.length_cons]
      refine ⟨by omega, by omega, fun _ _ => by omega⟩

theorem extract_string_bounds (t : tables) (quote : Char) (m_current : List Char) :
    ∀ (escaped dollar : Bool) (depth : Nat) (nested : Option Char) (m_buffer : List Char)
      (m_start : token_position) (s : scan_state),
      extract_string t quote escaped dollar depth nested m_current m_buffer m_start = some s →
      s.m_current.length ≤ m_current.length ∧
        s.m_start.offset + s.m_current.length = m_start.offset + m_current.length := by
  induction m_current with
  | nil =>
    intro escaped dollar depth nested m_buffer m_start s h
    simp [extract_string] at h
  | cons c rest ih =>
    intro escaped dollar depth nested m_buffer m_start s h
    have step : ∀ (e d : Bool) (k : Nat) (q : Option Char) (b : List Char),
        extract_string t quote e d k q rest b (update_position m_start c) = some s →
        s.m_current.length ≤ (c :: rest).length ∧
          s.m_start.offset + s.m_current.length = m_start.offset + (c :: rest).length := by
      intro e d k q b hrec
      have h1 := ih e d k q b (update_position m_start c) s hrec
      rw [update_position_offset] at h1
      simp only [List.length_cons]
      omega
    simp only [extract_string] at h
    split at h
    · exact step _ _ _ _ _ h
    · split at h
      · exact step _ _ _ _ _ h
      · split at h
        · exact step _ _ _ _ _ h
        · split at h
          · split at h
            · simp only [Option.some.injEq] at h
              subst h
              simp only [update_position_offset, List.length_cons]
              omega
            · split at h
              · exact step _ _ _ _ _ h
              · exact step _ _ _ _ _ h
          · split at h
            · exact step _ _ _ _ _ h
            · split at h
              · exact step _ _ _ _ _ h
              · split at h
                · exact step _ _ _ _ _ h
                · exact step _ _ _ _ _ h

theorem read_block_comment_bounds (m_current : List Char) :
    ∀ (star : Bool) (m_buffer : List Char) (m_start : token_position) (s : scan_state),
      read_block_comment star m_current m_buffer m_start = some s →
      s.m_current.length ≤ m_current.length ∧
        s.m_start.offset + s.m_current.length = m_start.offset + m_current.length := by
  induction m_current with
  | nil =>
    intro star m_buffer m_start s h
    simp [read_block_comment] at h
  | cons c rest ih =>
    intro star m_buffer m_start s h
    simp only [read_block_comment] at h
    split at h
    · simp only [Option.some.injEq] at h
      subst h
      simp only [update_position_offset, List.length_cons]
      omega
    · have h1 := ih _ _ _ s h
      rw [update_position_offset] at h1
      simp only [List.length_cons]
      omega

theorem longest_symbol_nonempty (symbols : List (String × Option operator_type))
    (m_current : List Char) (entry : String × Option operator_type)
    (h : longest_symbol symbols m_current = some entry) : 0 < entry.1.data.length := by
  have key : ∀ (entries : List (String × Option operator_type))
      (best : Option (String × Option operator_type)),
      (∀ b, best = some b → 0 < b.1.data.length) →
      ∀ e,
        entries.foldl
          (fun best entry =>
            if entry.1.data ≠ [] ∧ entry.1.data.isPrefixOf m_current = true then
              match best with
              | none => some entry
              | some b => if b.1.data.length < entry.1.data.length then some entry else some b
            else best)
          best = some e → 0 < e.1.data.length := by
    intro entries
    induction entries with
    | nil =>
      intro best hbest e he
      exact hbest e he
    | cons x rest ih =>
      intro best hbest e he
      rw [List.foldl_cons] at he
      refine ih _ ?_ e he
      intro b hb
      split at hb
      · rename_i hx
        have hxpos : 0 < x.1.data.length := List.length_pos.2 hx.1
        cases best with
        | none =>
          simp only [Option.some.injEq] at hb
          subst hb
          exact hxpos
        | some b0 =>
          simp only at hb
          split at hb
          · simp only [Option.some.injEq] at hb
            subst hb
            exact hxpos
          · simp only [Option.some.injEq] at hb
            subst hb
            exact hbest _ rfl
      · exact hbest b hb
  exact key symbols none (fun b hb => by cases hb) entry h

theorem read_next_token_ok (t : tables) (file_name : String) (m_start : token_position)
    (m_current : List Char) (token : token) (s : scan_state)
    (h : read_next_token t file_name m_start m_current = Except.ok (token, s)) :
    s.m_current.length < m_current.length ∧
    s.m_start.offset + s.m_current.length = m_start.offset + m_current.length ∧
    token.m_type ≠ token_type.token_eof := by
  cases m_current with
  | nil => simp [read_next_token] at h
  | cons c rest =>
    have hwhile : ∀ (condition : Char → Bool) (b : List Char),
        (read_while condition rest b (update_position m_start c)).m_current.length <
            (c :: rest).length ∧
          (read_while condition rest b (update_position m_start c)).m_start.offset +
              (read_while condition rest b (update_position m_start c)).m_current.length =
            m_start.offset + (c :: rest).length := by
      intro condition b
      have h1 := read_while_bounds condition rest b (update_position m_start c)
      rw [update_position_offset] at h1
      simp only [List.length_cons]
      omega
    simp only [read_next_token] at h
    split at h
    · simp only [Except.ok.injEq, Prod.mk.injEq] at h
      obtain ⟨rfl, rfl⟩ := h
      refine ⟨(hwhile _ _).1, (hwhile _ _).2, ?_⟩
      simp only [make_token]
      split <;> simp
    · split at h
      · simp only [Except.ok.injEq, Prod.mk.injEq] at h
        obtain ⟨rfl, rfl⟩ := h
        exact ⟨(hwhile _ _).1, (hwhile _ _).2, by simp [make_token]⟩
      · split at h
        · split at h
          · simp at h
          · rename_i s1 hs1
            simp only [Except.ok.injEq, Prod.mk.injEq] at h
            obtain ⟨rfl, rfl⟩ := h
            have h1 := extract_string_bounds t c rest _ _ _ _ _ _ _ hs1
            rw [update_position_offset] at h1
            simp only [List.length_cons]
            exact ⟨by omega, by omega, by simp [make_token]⟩
        · split at h
          · simp only [Except.ok.injEq, Prod.mk.injEq] at h
            obtain ⟨rfl, rfl⟩ := h
            exact ⟨(hwhile _ _).1, (hwhile _ _).2, by simp [make_token]⟩
          · split at h
            · rename_i hstar
              split at h
              · simp at h
              · rename_i s1 hs1
                simp only [Except.ok.injEq, Prod.mk.injEq] at h
                obtain ⟨rfl, rfl⟩ := h
                have h1 := read_block_comment_bounds _ _ _ _ _ hs1
                rw [update_position_offset, update_position_offset] at h1
                have hrest : (rest.drop 1).length + 1 = rest.length := by
                  cases rest with
                  | nil => simp at hstar
                  | cons d rest2 => simp
                simp only [List.length_cons]
                exact ⟨by omega, by omega, by simp [make_token]⟩
            · split at h
              · simp only [Except.ok.injEq, Prod.mk.injEq] at h
                obtain ⟨rfl, rfl⟩ := h
                exact ⟨(hwhile _ _).1, (hwhile _ _).2, by simp [make_token]⟩
              · split at h
                · simp at h
                · rename_i entry hentry
                  simp only [Except.ok.injEq, Prod.mk.injEq] at h
                  obtain ⟨rfl, rfl⟩ := h
                  have hpos := longest_symbol_nonempty _ _ _ hentry
                  have h1 := read_count_bounds entry.1.data.length (c :: rest) [] m_start
                  refine ⟨h1.2.2 hpos (by simp), h1.2.1, ?_⟩
                  simp only [make_token]
                  split <;> simp

theorem tokenize_loop_spec (t : tables) (file_name source : String) (fuel : Nat) :
    ∀ (m_current : List Char) (m_start : token_position) (m_tokens : List token),
      m_current.length < fuel →
      (∀ x ∈ m_tokens, x.m_type ≠ token_type.token_eof) →
      tokenize_loop t file_name source fuel m_current m_start m_tokens ≠
          tokenize_result.out_of_fuel ∧
        ∀ l, tokenize_loop t file_name source fuel m_current m_start m_tokens =
            tokenize_result.completed l →
          ∃ front eof, l.m_tokens = front ++ [eof] ∧
            eof.m_type = token_type.token_eof ∧
            (∀ x ∈ front, x.m_type ≠ token_type.token_eof) ∧
            eof.start.offset = m_start.offset + m_current.length ∧
            eof.«end».offset = m_start.offset + m_current.length := by
  induction fuel with
  | zero =>
    intro m_current m_start m_tokens hfuel
    omega
  | succ fuel ih =>
    intro m_current m_start m_tokens hfuel htokens
    have hd := discard_while_bounds is_whitespace m_current [] m_start
    simp only [tokenize_loop]
    split
    · rename_i hnil
      rw [hnil] at hd
      refine ⟨by simp, ?_⟩
      intro l hl
      simp only [tokenize_result.completed.injEq] at hl
      subst hl
      refine ⟨m_tokens, eof_token file_name _, rfl, rfl, htokens, ?_, ?_⟩
      · simp only [eof_token]
        simpa using hd.2
      · simp only [eof_token]
        simpa using hd.2
    · rename_i c rest hcons
      rw [hcons] at hd
      split
      · exact ⟨by simp, fun l hl => by simp at hl⟩
      · rename_i token s2 hnext
        have hok := read_next_token_ok t file_name _ _ _ _ hnext
        have hrec := ih s2.m_current s2.m_start (m_tokens ++ [token]) (by omega)
          (by
            intro x hx
            rcases List.mem_append.1 hx with hx | hx
            · exact htokens x hx
            · simp only [List.mem_singleton] at hx
              subst hx
              exact hok.2.2)
        refine ⟨hrec.1, ?_⟩
        intro l hl
        obtain ⟨front, eof, h1, h2, h3, h4, h5⟩ := hrec.2 l hl
        exact ⟨front, eof, h1, h2, h3, by omega, by omega⟩

/-- C3: `child_from_type(K)` returns the first child, in child order, whose
kind is `K` (the children split as `before ++ c :: after` with no node of kind
`K` in `before`), it returns none exactly when no child has kind `K`, and
`condition()` and `block()` are this lookup for the kinds condition-clause and
context. -/
theorem child_from_type_first_match (n : ast_node) (K : ast_node_type) :
    (∀ c, n.child_from_type K = some c ↔
      ∃ before after, n.childrens = before ++ c :: after ∧ c.type = K ∧
        ∀ d ∈ before, d.type ≠ K) ∧
    (n.child_from_type K = none ↔ ∀ d ∈ n.childrens, d.type ≠ K) ∧
    n.condition = n.child_from_type ast_node_type.ast_node_condition ∧
    n.block = n.child_from_type ast_node_type.ast_node_context :=
  ⟨fun c => child_from_type_loop_eq_some K n.childrens c,
   child_from_type_loop_eq_none K n.childrens, rfl, rfl⟩

/-- Witness for C3: in the class-declaration node of `class Foo {}` the lookup of
the kind name-declaration returns the first child, the node carrying `Foo`, and
the lookup of the kind condition-clause returns none. -/
theorem child_from_type_first_match_witness :
    examples.class_node.child_from_type ast_node_type.ast_node_declname =
      some (ast_node.of_token (examples.tok "Foo" token_type.token_identifier 6)
        ast_node_type.ast_node_declname) ∧
    examples.class_node.child_from_type ast_node_type.ast_node_condition = none :=
  ⟨((child_from_type_first_match examples.class_node ast_node_type.ast_node_declname).1 _).2
     ⟨[], [ast_node.of_type ast_node_type.ast_node_context], rfl, rfl,
      fun d hd => by cases hd⟩,
   (child_from_type_first_match examples.class_node ast_node_type.ast_node_condition).2.1.2
     (by decide)⟩

/-- C4: `add_child(c)` only appends: afterwards the children are the children
before, in the same order, followed by `c` as the last element, and the kind
and the token of the node are unchanged. -/
theorem add_child_appends (n c : ast_node) :
    (n.add_child c).childrens = n.childrens ++ [c] ∧
    (n.add_child c).childrens.getLast? = some c ∧
    (n.add_child c).childrens.take n.childrens.length = n.childrens ∧
    (n.add_child c).childrens.length = n.childrens.length + 1 ∧
    (n.add_child c).type = n.type ∧
    (n.add_child c).token = n.token := by
  cases n with
  | mk m_token m_type m_children =>
    simp [ast_node.add_child, ast_node.childrens, ast_node.type, ast_node.token]

/-- C5: `decname()` is defined exactly when the node has a child of kind
name-declaration and is then the content of the token of the first such
child; `value()` likewise for the kind value-declaration; with no child of
the kind the lookup yields none and there is no token to read. -/
theorem decname_value_first_child (n : ast_node) :
    (n.decname.isSome = true ↔
      ∃ c ∈ n.childrens, c.type = ast_node_type.ast_node_declname) ∧
    (∀ before c after, n.childrens = before ++ c :: after →
      c.type = ast_node_type.ast_node_declname →
      (∀ d ∈ before, d.type ≠ ast_node_type.ast_node_declname) →
      n.decname = some c.token.content) ∧
    (n.value.isSome = true ↔
      ∃ c ∈ n.childrens, c.type = ast_node_type.ast_node_valuedecl) ∧
    (∀ before c after, n.childrens = before ++ c :: after →
      c.type = ast_node_type.ast_node_valuedecl →
      (∀ d ∈ before, d.type ≠ ast_node_type.ast_node_valuedecl) →
      n.value = some c.token.content) ∧
    (∀ K, (∀ d ∈ n.childrens, d.type ≠ K) →
      n.child_from_type K = none ∧ n.child_token_from_type K = none ∧
        n.child_content_from_type K = none) := by
  have hsome : ∀ K, (n.child_content_from_type K).isSome = true ↔
      ∃ c ∈ n.childrens, c.type = K := by
    intro K
    cases hc : n.child_from_type K with
    | none =>
      have hnone := (child_from_type_loop_eq_none K n.childrens).1 hc
      simp only [ast_node.child_content_from_type, ast_node.child_token_from_type, hc]
      constructor
      · intro h
        simp at h
      · rintro ⟨c, hmem, hK⟩
        exact absurd hK (hnone c hmem)
    | some c =>
      obtain ⟨before, after, hcs, hK, -⟩ :=
        (child_from_type_loop_eq_some K n.childrens c).1 hc
      simp only [ast_node.child_content_from_type, ast_node.child_token_from_type, hc]
      constructor
      · intro _
        exact ⟨c, by simp [hcs], hK⟩
      · intro _
        rfl
  have hfirst : ∀ K before c after, n.childrens = before ++ c :: after →
      c.type = K → (∀ d ∈ before, d.type ≠ K) →
      n.child_content_from_type K = some c.token.content := by
    intro K before c after hcs hK hb
    have hc : n.child_from_type K = some c :=
      (child_from_type_loop_eq_some K n.childrens c).2 ⟨before, after, hcs, hK, hb⟩
    simp [ast_node.child_content_from_type, ast_node.child_token_from_type, hc]
  refine ⟨hsome _, hfirst _, hsome _, hfirst _, ?_⟩
  intro K hK
  have hc : n.child_from_type K = none :=
    (child_from_type_loop_eq_none K n.childrens).2 hK
  simp [ast_node.child_content_from_type, ast_node.child_token_from_type, hc]

/-- Witness for C5: the class-declaration node of `class Foo {}` has the name
`Foo` and, having no value-declaration child, no value. -/
theorem decname_value_first_child_witness :
    examples.class_node.decname = some "Foo" ∧
    examples.class_node.child_content_from_type ast_node_type.ast_node_valuedecl = none :=
  ⟨(decname_value_first_child examples.class_node).2.1 []
     (ast_node.of_token (examples.tok "Foo" token_type.token_identifier 6)
       ast_node_type.ast_node_declname)
     [ast_node.of_type ast_node_type.ast_node_context] rfl rfl (fun d hd => by cases hd),
   ((decname_value_first_child examples.class_node).2.2.2.2
     ast_node_type.ast_node_valuedecl (by decide)).2.2⟩

/-- C7: `has_next_token()` is true iff the cursor is strictly below the number
of tokens; `reset()` sets the cursor to 0 and leaves the buffer unchanged, so
after it the cursor lies in `[0, length]`, `has_previous_token()` is false and
`has_next_token()` holds exactly when the buffer is non-empty. -/
theorem has_next_token_iff_and_reset (l : lexer) :
    (l.has_next_token = true ↔ l.iterator < l.tokens.length) ∧
    l.reset.iterator = 0 ∧
    l.reset.tokens = l.tokens ∧
    (0 ≤ l.reset.iterator ∧ l.reset.iterator ≤ l.reset.tokens.length) ∧
    l.reset.has_previous_token = false ∧
    (l.reset.has_next_token = true ↔ l.tokens ≠ []) := by
  refine ⟨?_, rfl, rfl, ⟨Nat.zero_le _, Nat.zero_le _⟩, ?_, ?_⟩
  · simp [lexer.has_next_token, lexer.tokens]
  · simp [lexer.has_previous_token, lexer.reset]
  · simp [lexer.has_next_token, lexer.reset, lexer.tokens, List.length_pos]

/-- C2: with the cursor below the length, `see_next()` returns the token at
the cursor (it has no effect on the lexer), `next_token()` returns that same
token and advances the cursor by one, `rollback_token()` after it restores the
cursor so that the following `next_token()` returns the same token again, and
none of them changes the token buffer. -/
theorem next_see_rollback (l : lexer) (h : l.iterator < l.m_tokens.length) :
    l.see_next = some l.m_tokens[l.iterator] ∧
    ∃ l1, l.next_token = some (l.m_tokens[l.iterator], l1) ∧
      l1.iterator = l.iterator + 1 ∧ l1.m_tokens = l.m_tokens ∧
      ∃ l2, l1.rollback_token = some l2 ∧
        l2.iterator = l.iterator ∧ l2.m_tokens = l.m_tokens ∧ l2 = l ∧
        l2.see_next = some l.m_tokens[l.iterator] ∧
        l2.next_token = some (l.m_tokens[l.iterator], l1) := by
  have hget : l.m_tokens[l.iterator]? = some l.m_tokens[l.iterator] :=
    List.getElem?_eq_getElem h
  have hnext : l.next_token =
      some (l.m_tokens[l.iterator], { l with iterator := l.iterator + 1 }) := by
    simp [lexer.next_token, hget]
  refine ⟨hget, { l with iterator := l.iterator + 1 }, hnext, rfl, rfl, l, ?_, rfl, rfl,
    rfl, hget, hnext⟩
  simp [lexer.rollback_token]

/-- Witness for C2: the buffer `[A, B, C, EOF]` with the cursor at `B`. -/
theorem next_see_rollback_witness :
    (examples.lexer_of examples.abc_tokens 1).iterator <
      (examples.lexer_of examples.abc_tokens 1).m_tokens.length ∧
    (examples.lexer_of examples.abc_tokens 1).see_next =
      some (examples.tok "B" token_type.token_identifier 2) ∧
    ∃ l1, (examples.lexer_of examples.abc_tokens 1).next_token =
        some (examples.tok "B" token_type.token_identifier 2, l1) ∧
      l1.iterator = 1 + 1 ∧ l1.m_tokens = examples.abc_tokens ∧
      ∃ l2, l1.rollback_token = some l2 ∧
        l2.iterator = 1 ∧ l2.m_tokens = examples.abc_tokens ∧
        l2 = examples.lexer_of examples.abc_tokens 1 ∧
        l2.see_next = some (examples.tok "B" token_type.token_identifier 2) ∧
        l2.next_token = some (examples.tok "B" token_type.token_identifier 2, l1) :=
  ⟨by decide, next_see_rollback (examples.lexer_of examples.abc_tokens 1) (by decide)⟩

/-- C1: with the cursor inside the buffer, `erase_tokens(count)` with `count`
no larger than the number of tokens from the cursor on removes exactly the
`count` tokens starting at the cursor and leaves the cursor index unchanged;
`insert(tokens)` places the sequence at the cursor, keeps every other token in
its relative order and advances the cursor by the number of inserted tokens.
In particular on `[A, B, C, EOF]` with the cursor at `B`, `erase_tokens(1)`
gives `[A, C, EOF]` with the cursor at `C`, and `insert([X, Y])` there gives
`[A, X, Y, C, EOF]` with the cursor at `C`. -/
theorem erase_insert_contract (l : lexer) (h : l.iterator ≤ l.m_tokens.length) :
    (∀ count, count ≤ l.m_tokens.length - l.iterator →
      ∃ l1, l.erase_tokens count = some l1 ∧ l1.iterator = l.iterator ∧
        l1.m_tokens.length = l.m_tokens.length - count ∧
        (∀ i, i < l.iterator → l1.m_tokens[i]? = l.m_tokens[i]?) ∧
        (∀ i, l.iterator ≤ i → l1.m_tokens[i]? = l.m_tokens[i + count]?)) ∧
    (∀ ts, ∃ l1, l.insert ts = some l1 ∧ l1.iterator = l.iterator + ts.length ∧
        l1.m_tokens.length = l.m_tokens.length + ts.length ∧
        (∀ i, i < l.iterator → l1.m_tokens[i]? = l.m_tokens[i]?) ∧
        (∀ i, i < ts.length → l1.m_tokens[l.iterator + i]? = ts[i]?) ∧
        (∀ i, l.iterator ≤ i → l1.m_tokens[i + ts.length]? = l.m_tokens[i]?)) ∧
    (∀ A B C EOF X Y : token, l.m_tokens = [A, B, C, EOF] → l.iterator = 1 →
      ∃ l1 l2, l.erase_tokens 1 = some l1 ∧ l1.m_tokens = [A, C, EOF] ∧
        l1.iterator = 1 ∧ l1.see_next = some C ∧
        l1.insert [X, Y] = some l2 ∧ l2.m_tokens = [A, X, Y, C, EOF] ∧
        l2.iterator = 3 ∧ l2.see_next = some C) := by
  refine ⟨?_, ?_, ?_⟩
  · intro count hcount
    have hle : l.iterator + count ≤ l.m_tokens.length := by omega
    refine ⟨{ l with
      m_tokens := l.m_tokens.take l.iterator ++ l.m_tokens.drop (l.iterator + count) },
      by simp only [lexer.erase_tokens, if_pos hle], rfl, ?_, ?_, ?_⟩
    · simp only [List.length_append, List.length_take, List.length_drop]
      omega
    · intro i hi
      have hlen : i < (l.m_tokens.take l.iterator).length := by
        rw [List.length_take]; omega
      simp only [List.getElem?_append_left hlen, List.getElem?_take_of_lt hi]
    · intro i hi
      have hlen : (l.m_tokens.take l.iterator).length ≤ i := by
        rw [List.length_take]; omega
      have hmin : min l.iterator l.m_tokens.length = l.iterator := by omega
      simp only [List.getElem?_append_right hlen, List.length_take, List.getElem?_drop, hmin]
      congr 1
      omega
  · intro ts
    have hmin : min l.iterator l.m_tokens.length = l.iterator := by omega
    refine ⟨{ l with
      m_tokens := l.m_tokens.take l.iterator ++ ts ++ l.m_tokens.drop l.iterator
      iterator := l.iterator + ts.length },
      by simp only [lexer.insert, if_pos h], rfl, ?_, ?_, ?_, ?_⟩
    · simp only [List.length_append, List.length_take, List.length_drop]
      omega
    · intro i hi
      have hlen : i < (l.m_tokens.take l.iterator).length := by
        rw [List.length_take]; omega
      simp only [List.append_assoc, List.getElem?_append_left hlen,
        List.getElem?_take_of_lt hi]
    · intro i hi
      have hlen : (l.m_tokens.take l.iterator).length ≤ l.iterator + i := by
        rw [List.length_take]; omega
      simp only [List.append_assoc, List.getElem?_append_right hlen, List.length_take, hmin,
        Nat.add_sub_cancel_left, List.getElem?_append_left hi]
    · intro i hi
      have hlen : (l.m_tokens.take l.iterator).length ≤ i + ts.length := by
        rw [List.length_take]; omega
      have hlen2 : ts.length ≤ i + ts.length - l.iterator := by omega
      simp only [List.append_assoc, List.getElem?_append_right hlen, List.length_take, hmin,
        List.getElem?_append_right hlen2, List.getElem?_drop]
      congr 1
      omega
  · intro A B C EOF X Y htok hit
    refine ⟨{ l with m_tokens := [A, C, EOF] },
      { l with m_tokens := [A, X, Y, C, EOF], iterator := 3 }, ?_, rfl, hit, ?_, ?_, rfl, rfl,
      ?_⟩
    · simp [lexer.erase_tokens, htok, hit]
    · simp [lexer.see_next, hit]
    · simp [lexer.insert, hit]
    · simp [lexer.see_next]

/-- Witness for C1: the buffer `[A, B, C, EOF]` with the cursor at `B`, and the
tokens `X` and `Y` inserted after the erasure. -/
theorem erase_insert_contract_witness :
    (examples.lexer_of examples.abc_tokens 1).iterator ≤
      (examples.lexer_of examples.abc_tokens 1).m_tokens.length ∧
    ∃ l1 l2, (examples.lexer_of examples.abc_tokens 1).erase_tokens 1 = some l1 ∧
      l1.m_tokens = [examples.tok "A" token_type.token_identifier 0,
                     examples.tok "C" token_type.token_identifier 4,
                     examples.tok "" token_type.token_eof 5] ∧
      l1.iterator = 1 ∧ l1.see_next = some (examples.tok "C" token_type.token_identifier 4) ∧
      l1.insert [examples.tok "X" token_type.token_identifier 0,
                 examples.tok "Y" token_type.token_identifier 0] = some l2 ∧
      l2.m_tokens = [examples.tok "A" token_type.token_identifier 0,
                     examples.tok "X" token_type.token_identifier 0,
                     examples.tok "Y" token_type.token_identifier 0,
                     examples.tok "C" token_type.token_identifier 4,
                     examples.tok "" token_type.token_eof 5] ∧
      l2.iterator = 3 ∧ l2.see_next = some (examples.tok "C" token_type.token_identifier 4) :=
  ⟨by decide,
   (erase_insert_contract (examples.lexer_of examples.abc_tokens 1) (by decide)).2.2
     _ _ _ _ _ _ rfl rfl⟩

/-! ### The end-of-file token -/

/-- C6: `tokenize` never runs out of rounds, and whenever it completes the
token buffer ends in exactly one end-of-file token: `is_eof()` holds for the
last element and for no other element, and the offset of that token equals
the length of the source. -/
theorem tokenize_ends_in_one_eof (t : tables) (file_name source : String) :
    tokenize t file_name source ≠ tokenize_result.out_of_fuel ∧
    ∀ l, tokenize t file_name source = tokenize_result.completed l →
      ∃ front eof, l.tokens = front ++ [eof] ∧
        l.tokens.getLast? = some eof ∧
        eof.is_eof = true ∧
        (∀ x ∈ front, x.is_eof = false) ∧
        eof.start.offset = source.length ∧
        eof.«end».offset = source.length := by
  have hspec := tokenize_loop_spec t file_name source (source.data.length + 1) source.data {} []
    (Nat.lt_succ_self _) (fun x hx => by cases hx)
  refine ⟨hspec.1, ?_⟩
  intro l hl
  obtain ⟨front, eof, h1, h2, h3, h4, h5⟩ := hspec.2 l hl
  have hlen : source.length = source.data.length := rfl
  refine ⟨front, eof, h1, ?_, ?_, ?_, ?_, ?_⟩
  · simp [lexer.tokens, h1]
  · simp [token.is_eof, h2]
  · intro x hx
    simpa [token.is_eof] using h3 x hx
  · rw [hlen, h4]
    exact Nat.zero_add _
  · rw [hlen, h5]
    exact Nat.zero_add _

/-- Witness for C6: the source `class Foo` followed by a pair of braces, twelve
characters long, completes with five tokens, the last one the end-of-file token
at offset 12. -/
theorem tokenize_ends_in_one_eof_witness :
    tokenize examples.small_tables "a.andy" examples.braces_source =
      tokenize_result.completed examples.braces_lexer ∧
    ∃ front eof, examples.braces_lexer.tokens = front ++ [eof] ∧
      examples.braces_lexer.tokens.getLast? = some eof ∧
      eof.is_eof = true ∧
      (∀ x ∈ front, x.is_eof = false) ∧
      eof.start.offset = examples.braces_source.length ∧
      eof.«end».offset = examples.braces_source.length :=
  ⟨by decide,
   (tokenize_ends_in_one_eof examples.small_tables "a.andy" examples.braces_source).2
     examples.braces_lexer (by decide)⟩

/-! ### The declarations section -/

theorem references_loop_eq_filter (decname_token : token) (tokens : List token) :
    analyzer.references_loop decname_token tokens =
      (tokens.filter (fun t =>
        decide (t.type = token_type.token_identifier ∧
          t.content = decname_token.content))).map
        (fun t => ({ file := t.m_file_name, line := t.start.line, column := t.start.column,
                     offset := t.start.offset } : analyzer.reference)) := by
  induction tokens with
  | nil => rfl
  | cons t rest ih =>
    by_cases h1 : t.type = token_type.token_identifier
    · by_cases h2 : t.content = decname_token.content
      · simp [analyzer.references_loop, analyzer.write_path, h1, h2, ih]
      · simp [analyzer.references_loop, h1, h2, ih]
    · simp [analyzer.references_loop, h1, ih]

theorem declarations_loop_spec (l : lexer) (nodes : List ast_node)
    (h : ∀ node ∈ nodes, node.type = ast_node_type.ast_node_classdecl →
      ∃ c ∈ node.childrens, c.type = ast_node_type.ast_node_declname) :
    ∃ entries, analyzer.declarations_loop l nodes = some entries ∧
      List.Forall₂
        (fun node d =>
          ∃ decname_node,
            node.child_from_type ast_node_type.ast_node_declname = some decname_node ∧
            d.type = "class" ∧
            d.name = decname_node.token.content ∧
            d.file = decname_node.token.m_file_name ∧
            d.line = decname_node.token.start.line ∧
            d.column = decname_node.token.start.column ∧
            d.offset = decname_node.token.start.offset ∧
            d.references =
              (l.tokens.filter (fun t =>
                decide (t.type = token_type.token_identifier ∧ t.content = d.name))).map
                (fun t => ({ file := t.m_file_name, line := t.start.line,
                             column := t.start.column,
                             offset := t.start.offset } : analyzer.reference)))
        (nodes.filter (fun node => decide (node.type = ast_node_type.ast_node_classdecl)))
        entries := by
  induction nodes with
  | nil => exact ⟨[], rfl, List.Forall₂.nil⟩
  | cons node rest ih =>
    obtain ⟨ds, hds, hall⟩ := ih (fun n hn => h n (List.mem_cons_of_mem _ hn))
    by_cases hty : node.type = ast_node_type.ast_node_classdecl
    · obtain ⟨c, hc, hcty⟩ := h node (List.mem_cons_self _ _) hty
      cases hfind : node.child_from_type ast_node_type.ast_node_declname with
      | none =>
        exact absurd hcty
          ((child_from_type_loop_eq_none _ node.childrens).1 hfind c hc)
      | some decname_node =>
        refine ⟨analyzer.class_declaration l decname_node.token :: ds, ?_, ?_⟩
        · simp only [analyzer.declarations_loop, if_pos hty, hfind, hds]
        · simp only [List.filter_cons, hty, decide_True, if_true]
          refine List.Forall₂.cons ⟨decname_node, hfind, rfl, rfl, rfl, rfl, rfl, rfl, ?_⟩ hall
          exact references_loop_eq_filter decname_node.token l.tokens
    · refine ⟨ds, ?_, ?_⟩
      · simp only [analyzer.declarations_loop, if_neg hty, hds]
      · simpa only [List.filter_cons, hty, decide_False, Bool.false_eq_true, if_false]
          using hall

theorem request_of_good_input (env : analyzer.environment) (c : analyzer.collaborators)
    (arg0 arg1 file_path temp_file_path source : String)
    (hfile : env.absolute arg0 = some file_path)
    (htemp : env.absolute arg1 = some temp_file_path)
    (hexists : env.«exists» file_path = some true)
    (hregular : env.is_regular_file file_path = some true)
    (hread : env.read_all_text temp_file_path = some source) :
    analyzer.request env c arg0 arg1 =
      analyzer.report c [analyzer.event.read_all_text temp_file_path] file_path source := by
  simp only [analyzer.request, hfile, htemp, hexists, hregular, hread]

theorem request_of_returned_parse (env : analyzer.environment) (c : analyzer.collaborators)
    (arg0 arg1 file_path temp_file_path source : String) (root_node : ast_node) (l : lexer)
    (entries : List analyzer.declaration)
    (hfile : env.absolute arg0 = some file_path)
    (htemp : env.absolute arg1 = some temp_file_path)
    (hexists : env.«exists» file_path = some true)
    (hregular : env.is_regular_file file_path = some true)
    (hread : env.read_all_text temp_file_path = some source)
    (hparse : c.parse_all (c.process file_path (c.tokenize file_path source)) =
      analyzer.parse_outcome.returned root_node l)
    (hsection : analyzer.declarations_section l root_node = some entries) :
    (analyzer.request env c arg0 arg1).status = analyzer.request_status.completed ∧
    analyzer.declarations_written (analyzer.request env c arg0 arg1).events = [entries] := by
  rw [request_of_good_input env c arg0 arg1 file_path temp_file_path source hfile htemp hexists
    hregular hread]
  simp [analyzer.report, hparse, analyzer.root_node_after,
    analyzer.parse_outcome.lexer_after, hsection, analyzer.declarations_written]

/-- C8 (counterexample): for the buffer of `class Foo {} Foo` and the unit node
holding the class `Foo`, the references written for `Foo` are the tokens at
offsets 6 and 13, the first being the declaration's own name token, whereas
the references "elsewhere in the file" are only the token at offset 13; and
for a class-declaration child without a name-declaration child the section has
no defined content. -/
theorem declarations_own_name_token_is_listed :
    analyzer.declarations_section (examples.lexer_of examples.class_tokens 0)
        examples.class_unit =
      some [{ type := "class", name := "Foo", file := "a.andy", line := 0, column := 6,
              offset := 6,
              references := [{ file := "a.andy", line := 0, column := 6, offset := 6 },
                             { file := "a.andy", line := 0, column := 13, offset := 13 }] }] ∧
    analyzer.references_elsewhere (examples.tok "Foo" token_type.token_identifier 6)
        examples.class_tokens =
      [{ file := "a.andy", line := 0, column := 13, offset := 13 }] ∧
    analyzer.declarations_section (examples.lexer_of examples.class_tokens 0)
        examples.nameless_unit = none := by
  refine ⟨by decide, by decide, by decide⟩

/-- C8 (amended): when every class-declaration child of the root has a
name-declaration child, the declarations section lists exactly the direct
children of the root whose kind is class-declaration, in child order, each with
the content, file and start position of the token of its first
name-declaration child, and the references of each are exactly the identifier
tokens of the buffer whose content equals the class name, in buffer order, the
declaration's own name token included; a pass of the analyzer in which the
file system calls return, the input file passes the checks and `parse_all`
returns this root and leaves this buffer writes exactly that section. -/
theorem declarations_section_lists_classes (l : lexer) (root_node : ast_node)
    (h : ∀ node ∈ root_node.childrens, node.type = ast_node_type.ast_node_classdecl →
      ∃ c ∈ node.childrens, c.type = ast_node_type.ast_node_declname) :
    ∃ entries, analyzer.declarations_section l root_node = some entries ∧
      List.Forall₂
        (fun node d =>
          ∃ decname_node,
            node.child_from_type ast_node_type.ast_node_declname = some decname_node ∧
            d.type = "class" ∧
            d.name = decname_node.token.content ∧
            d.file = decname_node.token.m_file_name ∧
            d.line = decname_node.token.start.line ∧
            d.column = decname_node.token.start.column ∧
            d.offset = decname_node.token.start.offset ∧
            d.references =
              (l.tokens.filter (fun t =>
                decide (t.type = token_type.token_identifier ∧ t.content = d.name))).map
                (fun t => ({ file := t.m_file_name, line := t.start.line,
                             column := t.start.column,
                             offset := t.start.offset } : analyzer.reference)))
        (root_node.childrens.filter
          (fun node => decide (node.type = ast_node_type.ast_node_classdecl)))
        entries ∧
      ∀ (env : analyzer.environment) (c : analyzer.collaborators)
        (arg0 arg1 file_path temp_file_path source : String),
        env.absolute arg0 = some file_path →
        env.absolute arg1 = some temp_file_path →
        env.«exists» file_path = some true →
        env.is_regular_file file_path = some true →
        env.read_all_text temp_file_path = some source →
        c.parse_all (c.process file_path (c.tokenize file_path source)) =
          analyzer.parse_outcome.returned root_node l →
        (analyzer.request env c arg0 arg1).status = analyzer.request_status.completed ∧
          analyzer.declarations_written (analyzer.request env c arg0 arg1).events =
            [entries] := by
  obtain ⟨entries, hsection, hall⟩ := declarations_loop_spec l root_node.childrens h
  exact ⟨entries, hsection, hall,
    fun env c arg0 arg1 file_path temp_file_path source hfile htemp hexists hregular hread
        hparse =>
      request_of_returned_parse env c arg0 arg1 file_path temp_file_path source root_node l
        entries hfile htemp hexists hregular hread hparse hsection⟩

/-- Witness for C8: the buffer of `class Foo {} Foo` with the unit node
holding the class `Foo`. -/
theorem declarations_section_lists_classes_witness :
    (∀ node ∈ examples.class_unit.childrens,
      node.type = ast_node_type.ast_node_classdecl →
      ∃ c ∈ node.childrens, c.type = ast_node_type.ast_node_declname) ∧
    ∃ entries,
      analyzer.declarations_section (examples.lexer_of examples.class_tokens 0)
        examples.class_unit = some entries ∧
      List.Forall₂
        (fun node d =>
          ∃ decname_node,
            node.child_from_type ast_node_type.ast_node_declname = some decname_node ∧
            d.type = "class" ∧
            d.name = decname_node.token.content ∧
            d.file = decname_node.token.m_file_name ∧
            d.line = decname_node.token.start.line ∧
            d.column = decname_node.token.start.column ∧
            d.offset = decname_node.token.start.offset ∧
            d.references =
              ((examples.lexer_of examples.class_tokens 0).tokens.filter (fun t =>
                decide (t.type = token_type.token_identifier ∧ t.content = d.name))).map
                (fun t => ({ file := t.m_file_name, line := t.start.line,
                             column := t.start.column,
                             offset := t.start.offset } : analyzer.reference)))
        (examples.class_unit.childrens.filter
          (fun node => decide (node.type = ast_node_type.ast_node_classdecl)))
        entries ∧
      ∀ (env : analyzer.environment) (c : analyzer.collaborators)
        (arg0 arg1 file_path temp_file_path source : String),
        env.absolute arg0 = some file_path →
        env.absolute arg1 = some temp_file_path →
        env.«exists» file_path = some true →
        env.is_regular_file file_path = some true →
        env.read_all_text temp_file_path = some source →
        c.parse_all (c.process file_path (c.tokenize file_path source)) =
          analyzer.parse_outcome.returned examples.class_unit
            (examples.lexer_of examples.class_tokens 0) →
        (analyzer.request env c arg0 arg1).status = analyzer.request_status.completed ∧
          analyzer.declarations_written (analyzer.request env c arg0 arg1).events =
            [entries] :=
  ⟨by decide,
   declarations_section_lists_classes (examples.lexer_of examples.class_tokens 0)
     examples.class_unit (by decide)⟩

/-! ### A failing `parse_all` -/

/-- C9 (counterexample): on the text `class Foo`, line feed, opening brace,
`parse_all` throws after it had collected the class `Foo`; the pass still
completes, but the declarations array it writes is empty, whereas the
declarations of the node collected up to the failure would be the class
`Foo`. -/
theorem parse_failure_drops_collected_class :
    examples.failing_parse.parse_all
        (examples.failing_parse.process "a.andy"
          (examples.failing_parse.tokenize "a.andy" "class Foo\n\x7b")) =
      analyzer.parse_outcome.threw examples.class_unit
        (examples.lexer_of [examples.tok "class" token_type.token_keyword 0,
                            examples.tok "Foo" token_type.token_identifier 6,
                            examples.tok "\x7b" token_type.token_delimiter 10,
                            examples.tok "" token_type.token_eof 11] 4) ∧
    (analyzer.request examples.one_file examples.failing_parse "a.andy" "a.andy").status =
      analyzer.request_status.completed ∧
    analyzer.declarations_written
        (analyzer.request examples.one_file examples.failing_parse "a.andy" "a.andy").events =
      [[]] ∧
    analyzer.declarations_section
        (examples.lexer_of [examples.tok "class" token_type.token_keyword 0,
                            examples.tok "Foo" token_type.token_identifier 6,
                            examples.tok "\x7b" token_type.token_delimiter 10,
                            examples.tok "" token_type.token_eof 11] 4)
        examples.class_unit =
      some [{ type := "class", name := "Foo", file := "a.andy", line := 0, column := 6,
              offset := 6,
              references := [{ file := "a.andy", line := 0, column := 6, offset := 6 }] }] := by
  refine ⟨rfl, by decide, by decide, by decide⟩

/-- C9 (amended): when the file system calls return, the input file passes the
checks and `parse_all` leaves by an exception, the analyzer catches it at the
call boundary and completes the pass, `root_node` stays the default-constructed
node (kind undefined, no children), and the declarations array of the report
is empty, whatever `parse_all` had collected before the failure. -/
theorem parse_failure_gives_empty_declarations (env : analyzer.environment)
    (c : analyzer.collaborators) (arg0 arg1 file_path temp_file_path source : String)
    (built : ast_node) (l1 : lexer)
    (hfile : env.absolute arg0 = some file_path)
    (htemp : env.absolute arg1 = some temp_file_path)
    (hexists : env.«exists» file_path = some true)
    (hregular : env.is_regular_file file_path = some true)
    (hread : env.read_all_text temp_file_path = some source)
    (hthrow : c.parse_all (c.process file_path (c.tokenize file_path source)) =
      analyzer.parse_outcome.threw built l1) :
    analyzer.root_node_after (analyzer.parse_outcome.threw built l1) = ast_node.new ∧
    ast_node.new.type = ast_node_type.ast_node_undefined ∧
    ast_node.new.childrens = [] ∧
    (analyzer.request env c arg0 arg1).status = analyzer.request_status.completed ∧
    analyzer.declarations_written (analyzer.request env c arg0 arg1).events = [[]] := by
  rw [request_of_good_input env c arg0 arg1 file_path temp_file_path source hfile htemp hexists
    hregular hread]
  refine ⟨rfl, rfl, rfl, ?_, ?_⟩
  · simp [analyzer.report, hthrow, analyzer.root_node_after,
      analyzer.declarations_section, ast_node.new, ast_node.childrens,
      analyzer.declarations_loop]
  · simp [analyzer.report, hthrow, analyzer.root_node_after,
      analyzer.declarations_section, ast_node.new, ast_node.childrens,
      analyzer.declarations_loop, analyzer.declarations_written]

/-- Witness for C9: the file system `one_file` with the collaborators
`failing_parse`. -/
theorem parse_failure_gives_empty_declarations_witness :
    analyzer.root_node_after
        (analyzer.parse_outcome.threw examples.class_unit
          (examples.lexer_of [examples.tok "class" token_type.token_keyword 0,
                              examples.tok "Foo" token_type.token_identifier 6,
                              examples.tok "\x7b" token_type.token_delimiter 10,
                              examples.tok "" token_type.token_eof 11] 4)) = ast_node.new ∧
    ast_node.new.type = ast_node_type.ast_node_undefined ∧
    ast_node.new.childrens = [] ∧
    (analyzer.request examples.one_file examples.failing_parse "a.andy" "a.andy").status =
      analyzer.request_status.completed ∧
    analyzer.declarations_written
        (analyzer.request examples.one_file examples.failing_parse "a.andy" "a.andy").events =
      [[]] :=
  parse_failure_gives_empty_declarations examples.one_file examples.failing_parse "a.andy"
    "a.andy" "a.andy" "a.andy" "class Foo\n\x7b" examples.class_unit _ (by decide) (by decide)
    (by decide) (by decide) (by decide) rfl

/-! ### The input file checks -/

theorem request_of_bad_input (env : analyzer.environment) (c : analyzer.collaborators)
    (arg0 arg1 file_path temp_file_path : String)
    (hfile : env.absolute arg0 = some file_path)
    (htemp : env.absolute arg1 = some temp_file_path)
    (h : env.«exists» file_path = some false ∨
      (env.«exists» file_path = some true ∧ env.is_regular_file file_path = some false)) :
    analyzer.request env c arg0 arg1 =
      { events := [analyzer.event.cerr
          (if env.«exists» file_path = some true then
            "input file '" ++ file_path ++ "' is not a regular file"
          else "input file '" ++ file_path ++ "' does not exist")],
        status := analyzer.request_status.exit 1 } := by
  rcases h with hex | ⟨hex, hreg⟩
  · simp [analyzer.request, hfile, htemp, hex]
  · simp [analyzer.request, hfile, htemp, hex, hreg]

/-- Where both calls of `absolute` return: when the input file does not exist
or is not a regular file, the pass only writes a message to standard error and
calls `exit(1)`, in one-shot mode and in the loop of the persistent mode
alike; no source is read, nothing is tokenized and nothing is written to
standard output. -/
theorem missing_input_file_exits (env : analyzer.environment)
    (c : analyzer.collaborators) (arg0 arg1 file_path temp_file_path : String)
    (hfile : env.absolute arg0 = some file_path)
    (htemp : env.absolute arg1 = some temp_file_path)
    (h : env.«exists» file_path = some false ∨
      (env.«exists» file_path = some true ∧ env.is_regular_file file_path = some false)) :
    ∃ text,
      analyzer.request env c arg0 arg1 =
        { events := [analyzer.event.cerr text], status := analyzer.request_status.exit 1 } ∧
      (∀ argv cin passes more,
        analyzer.scan_arguments false [] (argv.drop 1) = (false, arg0 :: more) →
        more.headD arg0 = arg1 →
        analyzer.main env c argv cin passes =
          { events := [analyzer.event.cerr text], status := analyzer.process_status.exited 1 }) ∧
      (∀ passes cin previous0 previous1,
        (analyzer.getline cin previous0).2 = arg0 →
        (analyzer.getline (analyzer.getline cin previous0).1 previous1).2 = arg1 →
        analyzer.serve env c (passes + 1) cin previous0 previous1 =
          { events := [analyzer.event.cerr text],
            status := analyzer.process_status.exited 1 }) := by
  have hreq := request_of_bad_input env c arg0 arg1 file_path temp_file_path hfile htemp h
  refine ⟨_, hreq, ?_, ?_⟩
  · intro argv cin passes more hscan hmore
    cases more with
    | nil =>
      simp only [List.headD_nil] at hmore
      subst hmore
      simp only [analyzer.main, hscan, hreq, Bool.false_eq_true, if_false]
    | cons second others =>
      simp only [List.headD_cons] at hmore
      subst hmore
      simp only [analyzer.main, hscan, hreq, Bool.false_eq_true, if_false]
  · intro passes cin previous0 previous1 hline0 hline1
    simp only [analyzer.serve, hline0, hline1, hreq]

/-- C10 (failing input): an input file path on which `absolute` throws never
reaches the checks. In the file system `one_file`, where no file has the empty
name, the run `andy-analyzer ""` ends aborted, with no message and no exit
status 1; so does the persistent mode when the second line of a request is
missing (standard input `b.andy` and a line feed) and when standard input is
closed at once. The missing file `b.andy`, on which `absolute` returns, gets
the message and exit status 1. -/
theorem empty_input_path_aborts :
    examples.one_file.«exists» "" = some false ∧
    analyzer.main examples.one_file examples.failing_parse ["andy-analyzer", ""]
        { chars := [], eofbit := false, failbit := false } 0 =
      { events := [], status := analyzer.process_status.aborted } ∧
    analyzer.main examples.one_file examples.failing_parse ["andy-analyzer", "--server"]
        { chars := "b.andy\n".data, eofbit := false, failbit := false } 1 =
      { events := [], status := analyzer.process_status.aborted } ∧
    analyzer.main examples.one_file examples.failing_parse ["andy-analyzer", "--server"]
        { chars := [], eofbit := false, failbit := false } 1 =
      { events := [], status := analyzer.process_status.aborted } ∧
    analyzer.main examples.one_file examples.failing_parse ["andy-analyzer", "b.andy"]
        { chars := [], eofbit := false, failbit := false } 0 =
      { events := [analyzer.event.cerr "input file 'b.andy' does not exist"],
        status := analyzer.process_status.exited 1 } := by
  refine ⟨by decide, by decide, by decide, by decide, by decide⟩

/-! ### Later duplicates of a child kind -/

theorem child_from_type_loop_append (K : ast_node_type) (cs : List ast_node) (c : ast_node) :
    ast_node.child_from_type_loop K (cs ++ [c]) =
      match ast_node.child_from_type_loop K cs with
      | some x => some x
      | none => if c.type = K then some c else none := by
  induction cs with
  | nil => simp [ast_node.child_from_type_loop]
  | cons d rest ih =>
    by_cases hd : d.type = K
    · simp [ast_node.child_from_type_loop, hd]
    · simp [ast_node.child_from_type_loop, hd, ih]

theorem add_child_childrens (n c : ast_node) :
    (n.add_child c).childrens = n.childrens ++ [c] := by
  cases n with
  | mk m_token m_type m_children => rfl

/-- C12: the lookup ignores later duplicates. If `child_from_type(K)` returns a
child `x`, then after `add_child(c)` it still returns `x`, at the same place
among the children, whatever the kind of `c`; if it returned none, then after
`add_child(c)` it returns `c` when `c` has kind `K` and none otherwise. -/
theorem child_from_type_ignores_later_duplicates (n c : ast_node) (K : ast_node_type) :
    (∀ x, n.child_from_type K = some x →
      (n.add_child c).child_from_type K = some x ∧
      ∃ before after, n.childrens = before ++ x :: after ∧
        (n.add_child c).childrens = before ++ x :: (after ++ [c]) ∧
        ∀ d ∈ before, d.type ≠ K) ∧
    (n.child_from_type K = none → c.type = K →
      (n.add_child c).child_from_type K = some c) ∧
    (n.child_from_type K = none → c.type ≠ K →
      (n.add_child c).child_from_type K = none) := by
  have happend : (n.add_child c).child_from_type K =
      match n.child_from_type K with
      | some x => some x
      | none => if c.type = K then some c else none := by
    simp only [ast_node.child_from_type, add_child_childrens]
    exact child_from_type_loop_append K n.childrens c
  refine ⟨?_, ?_, ?_⟩
  · intro x hx
    refine ⟨by rw [happend, hx], ?_⟩
    obtain ⟨before, after, hcs, -, hb⟩ :=
      (child_from_type_loop_eq_some K n.childrens x).1 hx
    exact ⟨before, after, hcs, by simp [add_child_childrens, hcs], hb⟩
  · intro hnone hK
    rw [happend, hnone]
    simp [hK]
  · intro hnone hK
    rw [happend, hnone]
    simp [hK]

/-- Witness for C12: the class-declaration node of `class Foo {}` keeps
returning the node carrying `Foo` after a second name-declaration child, and
a first condition-clause child is found once it is added. -/
theorem child_from_type_ignores_later_duplicates_witness :
    (examples.class_node.add_child
        (ast_node.of_token (examples.tok "Bar" token_type.token_identifier 20)
          ast_node_type.ast_node_declname)).child_from_type
        ast_node_type.ast_node_declname =
      some (ast_node.of_token (examples.tok "Foo" token_type.token_identifier 6)
        ast_node_type.ast_node_declname) ∧
    (examples.class_node.add_child
        (ast_node.of_type ast_node_type.ast_node_condition)).child_from_type
        ast_node_type.ast_node_condition =
      some (ast_node.of_type ast_node_type.ast_node_condition) :=
  ⟨((child_from_type_ignores_later_duplicates examples.class_node _
       ast_node_type.ast_node_declname).1 _ rfl).1,
   (child_from_type_ignores_later_duplicates examples.class_node
       (ast_node.of_type ast_node_type.ast_node_condition)
       ast_node_type.ast_node_condition).2.1 rfl rfl⟩

/-! ### The token before the cursor -/

/-- C13: `current_token()` reads the buffer at index `iterator - 1`. With
`has_previous_token()` true and the cursor at most the length it returns the
token at that index, which is the token the cursor passed last (the one a
`next_token()` leading to this state returned); with the cursor at 0, as right
after `reset()`, the index wraps around to `2 ^ 64 - 1`, outside the buffer,
and there is no defined result. The size of the buffer fits a `size_t`. -/
theorem current_token_reads_previous (l : lexer) (hsize : l.m_tokens.length < 2 ^ 64) :
    (l.has_previous_token = true → l.iterator ≤ l.m_tokens.length →
      ∃ t, l.m_tokens[l.iterator - 1]? = some t ∧ l.current_token = some t) ∧
    (∀ (l0 : lexer) (t : token), l0.next_token = some (t, l) → l.current_token = some t) ∧
    (l.iterator = 0 → l.current_token = none) ∧
    l.reset.current_token = none := by
  have hzero : ∀ l1 : lexer, l1.m_tokens.length < 2 ^ 64 → l1.iterator = 0 →
      l1.current_token = none := by
    intro l1 h1 h0
    simp only [lexer.current_token, h0, Nat.zero_add]
    rw [Nat.mod_eq_of_lt (by omega)]
    exact List.getElem?_eq_none (by omega)
  have hprev : ∀ i, 0 < i → i ≤ l.m_tokens.length → (i + 2 ^ 64 - 1) % 2 ^ 64 = i - 1 := by
    intro i hpos hle
    have h1 : i + 2 ^ 64 - 1 = (i - 1) + 2 ^ 64 := by omega
    rw [h1, Nat.add_mod_right]
    exact Nat.mod_eq_of_lt (by omega)
  refine ⟨?_, ?_, hzero l hsize, hzero l.reset hsize rfl⟩
  · intro hhas hle
    have hpos : 0 < l.iterator := by simpa [lexer.has_previous_token] using hhas
    have hlt : l.iterator - 1 < l.m_tokens.length := by omega
    refine ⟨l.m_tokens[l.iterator - 1], List.getElem?_eq_getElem hlt, ?_⟩
    simp only [lexer.current_token, hprev l.iterator hpos hle]
    exact List.getElem?_eq_getElem hlt
  · intro l0 t hnext
    simp only [lexer.next_token] at hnext
    split at hnext
    · rename_i t0 hget
      simp only [Option.some.injEq, Prod.mk.injEq] at hnext
      obtain ⟨rfl, rfl⟩ := hnext
      have hlt : l0.iterator < l0.m_tokens.length := by
        by_contra hcon
        rw [List.getElem?_eq_none (by omega)] at hget
        cases hget
      have hidx : (l0.iterator + 1 + 2 ^ 64 - 1) % 2 ^ 64 = l0.iterator := by
        have h1 : l0.iterator + 1 + 2 ^ 64 - 1 = l0.iterator + 2 ^ 64 := by omega
        rw [h1, Nat.add_mod_right]
        exact Nat.mod_eq_of_lt (by simp only at hsize; omega)
      simp only [lexer.current_token, hidx]
      exact hget
    · cases hnext

/-- Witness for C13: the buffer `[A, B, C, EOF]` with the cursor at `C`, where
the token before the cursor is `B`. -/
theorem current_token_reads_previous_witness :
    (examples.lexer_of examples.abc_tokens 2).m_tokens.length < 2 ^ 64 ∧
    (∃ t, (examples.lexer_of examples.abc_tokens 2).m_tokens[2 - 1]? = some t ∧
      (examples.lexer_of examples.abc_tokens 2).current_token = some t) ∧
    (examples.lexer_of examples.abc_tokens 2).current_token =
      some (examples.tok "B" token_type.token_identifier 2) ∧
    (examples.lexer_of examples.abc_tokens 2).reset.current_token = none :=
  ⟨by decide,
   (current_token_reads_previous (examples.lexer_of examples.abc_tokens 2) (by decide)).1
     (by decide) (by decide),
   (current_token_reads_previous (examples.lexer_of examples.abc_tokens 2) (by decide)).2.1
     (examples.lexer_of examples.abc_tokens 1) _ (by decide),
   (current_token_reads_previous (examples.lexer_of examples.abc_tokens 2) (by decide)).2.2.2⟩

/-! ### The argument list -/

end andy.lang
